import Mathlib

/-!
Shallow embedding of the media pipeline core of `video_processing_logic.py`
(repository: Editor-Automático), together with proofs of the behavioural
properties stated in the specification.

Conventions of the embedding:
* Python floats that only drive control-flow decisions (durations, progress
  fractions) are embedded as rationals (`Rat`); the claims settled here depend
  only on comparisons and zero-tests, which agree with the float semantics on
  the values involved.
* Filesystem and subprocess effects are embedded as explicit inputs: a probe
  result is an `Option MediaProps` argument, the cancellation event is a
  boolean (or a boolean-valued time function where the instant of observation
  matters), the subprocess's fate is an exit code plus the number of poll
  iterations it stays alive.
* The progress sink is embedded as the list of messages put on the queue, in
  order.
-/

namespace VideoProc

/-- Severity tags used by `status` progress messages. -/
inductive Severity
  | info
  | warning
  | error
  | success
deriving DecidableEq, Repr

/-- One message put on the progress queue (`progress_queue.put(...)` in the
source): `status(text, severity)`, `progress(fraction)`,
`batch_progress(fraction)` or `finish(success)`. -/
inductive Msg
  | status (text : String) (sev : Severity)
  | progress (frac : Rat)
  | batchProgress (frac : Rat)
  | finish (ok : Bool)
deriving DecidableEq, Repr

/-- Whether a message is a `finish` message. -/
def Msg.isFinish : Msg → Bool
  | .finish _ => true
  | _ => false

/-! ## Entry point (`process_entrypoint`, lines 221-252)

The dispatched orchestrator body is abstracted by the list of messages it puts
on the queue plus how it ends: a normal boolean return, an `InterruptedError`,
or any other exception (whose rendered text is carried along).  The
cancellation event is sampled twice, exactly where the source samples it: once
before dispatch (line 227) and once in the `finally` block (line 247). -/

/-- How the dispatched orchestrator body ends. -/
inductive BodyOutcome
  | ok (success : Bool)
  | interrupted
  | exn (text : String)
deriving DecidableEq, Repr

/-- Result of one entry-point call: the messages emitted to the sink, and
whether the temporary directory created at the start was removed. -/
structure EntryResult where
  msgs : List Msg
  tempDirRemoved : Bool
deriving DecidableEq, Repr

/-- Text of the final status message of `process_entrypoint` (line 249). -/
def finalStatusText (success cancelled : Bool) : String :=
  if cancelled then "Processo cancelado pelo usuário."
  else if success then "Processo concluído com sucesso!" else "Processo falhou."

/-- Severity tag of the final status message of `process_entrypoint`
(line 250). -/
def finalStatusSev (success cancelled : Bool) : Severity :=
  if cancelled then Severity.warning
  else if success then Severity.success else Severity.error

/-- Messages emitted by the `finally` block of `process_entrypoint`
(lines 247-251): the terminal `finish` followed by the final `status`. -/
def finallyMsgs (success cancelled : Bool) : List Msg :=
  [Msg.finish (success && !cancelled),
   Msg.status (finalStatusText success cancelled) (finalStatusSev success cancelled)]

/-- Embedding of `process_entrypoint` (lines 221-252).  `cancelBefore` is the
cancellation flag at the line-227 check, `bodyMsgs`/`outcome` describe the
dispatched orchestrator, `cancelAfter` is the flag at the line-247 check.
The temporary directory is created before the `try` and removed in the
`finally` (a failing `rmtree` is itself caught), so removal happens on every
path of the embedding. -/
def process_entrypoint (cancelBefore : Bool) (bodyMsgs : List Msg)
    (outcome : BodyOutcome) (cancelAfter : Bool) : EntryResult :=
  let initMsgs := [Msg.status "Diretório temporário criado." Severity.info]
  let (midMsgs, success) :=
    if cancelBefore then
      ([], false)
    else
      match outcome with
      | .ok b => (bodyMsgs, b)
      | .interrupted => (bodyMsgs, false)
      | .exn e => (bodyMsgs ++ [Msg.status ("Erro CRÍTICO: " ++ e) Severity.error], false)
  { msgs := initMsgs ++ midMsgs ++ finallyMsgs success cancelAfter
    tempDirRemoved := true }

end VideoProc

namespace VideoProc

/-- C1: every entry-point call, on every path (success, failure, internal
exception, cancellation), emits exactly one terminal `finish` message followed
by exactly one final `status` message — the last two messages of the run — and
the temporary directory is removed.  The hypothesis records that the
orchestrator bodies never emit `finish` themselves (true of all three
orchestrators in the source, which only emit `status`, `progress` and
`batch_progress`). -/
theorem entrypoint_exactly_one_finish_then_status
    (cancelBefore : Bool) (bodyMsgs : List Msg) (outcome : BodyOutcome)
    (cancelAfter : Bool)
    (hbody : ∀ m ∈ bodyMsgs, m.isFinish = false) :
    let r := process_entrypoint cancelBefore bodyMsgs outcome cancelAfter
    (r.msgs.countP Msg.isFinish = 1) ∧
    (∃ pre ok text sev, r.msgs = pre ++ [Msg.finish ok, Msg.status text sev]) ∧
    r.tempDirRemoved = true := by
  have hcount : bodyMsgs.countP Msg.isFinish = 0 :=
    List.countP_eq_zero.mpr (by simpa using hbody)
  refine ⟨?_, ?_, rfl⟩
  · cases cancelBefore <;> cases outcome <;>
      simp [process_entrypoint, finallyMsgs, List.countP_append, hcount, Msg.isFinish,
        List.countP_cons]
  · cases cancelBefore with
    | true =>
        exact ⟨[Msg.status "Diretório temporário criado." Severity.info],
          false && !cancelAfter, finalStatusText false cancelAfter,
          finalStatusSev false cancelAfter, by simp [process_entrypoint, finallyMsgs]⟩
    | false =>
        cases outcome with
        | ok b =>
            exact ⟨Msg.status "Diretório temporário criado." Severity.info :: bodyMsgs,
              b && !cancelAfter, finalStatusText b cancelAfter,
              finalStatusSev b cancelAfter, by simp [process_entrypoint, finallyMsgs]⟩
        | interrupted =>
            exact ⟨Msg.status "Diretório temporário criado." Severity.info :: bodyMsgs,
              false && !cancelAfter, finalStatusText false cancelAfter,
              finalStatusSev false cancelAfter, by simp [process_entrypoint, finallyMsgs]⟩
        | exn e =>
            exact ⟨Msg.status "Diretório temporário criado." Severity.info ::
                (bodyMsgs ++ [Msg.status ("Erro CRÍTICO: " ++ e) Severity.error]),
              false && !cancelAfter, finalStatusText false cancelAfter,
              finalStatusSev false cancelAfter, by simp [process_entrypoint, finallyMsgs]⟩

/-- Witness for C1: a concrete successful, uncancelled run. -/
theorem entrypoint_exactly_one_finish_then_status_witness :
    let r := process_entrypoint false [Msg.progress (1 : Rat)] (BodyOutcome.ok true) false
    (r.msgs.countP Msg.isFinish = 1) ∧
    (∃ pre ok text sev, r.msgs = pre ++ [Msg.finish ok, Msg.status text sev]) ∧
    r.tempDirRemoved = true :=
  entrypoint_exactly_one_finish_then_status false [Msg.progress (1 : Rat)]
    (BodyOutcome.ok true) false (by decide)

/-! ## Process runner (`_execute_ffmpeg`, lines 83-144)

One execution of the runner is described by a trace: how many poll-loop
iterations the process would stay alive before exiting on its own, the value
of the cancellation flag at each poll iteration, the final exit code, and the
value of the flag at the post-loop check of line 131.  The poll loop of
lines 101-123 runs one iteration per time slice while the process is alive,
breaking out (after sending `terminate`) at the first iteration that observes
the flag set.  Classification (lines 131-144) depends only on the line-131
check and the exit code.  Registry interaction and process lifecycle are
recorded as an event list: `add` is called immediately after `Popen`
(lines 90-91) and `remove` immediately after `wait` (lines 125-126),
unconditionally on every path through the function. -/

/-- Events of one `_execute_ffmpeg` run: process spawn, registry `add`, one
poll-loop iteration (carrying the cancellation flag it observed), the
graceful `terminate` of line 105, the final `wait` (reap) of line 125, and
registry `remove`. -/
inductive REv
  | spawn
  | register
  | pollIter (cancelFlag : Bool)
  | terminate
  | reap
  | unregister
deriving DecidableEq, Repr

/-- Environment of one `_execute_ffmpeg` run. -/
structure FFTrace where
  alive : Nat
  cancelAt : Nat → Bool
  exitCode : Int
  cancelFinal : Bool

/-- Index of the first poll iteration (among the `alive` ones) that observes
the cancellation flag set. -/
def firstCancelIdx (t : FFTrace) : Option Nat :=
  (List.range t.alive).find? (fun i => t.cancelAt i)

/-- Whether the poll loop observed the cancellation flag while the process was
running (and hence broke out via `terminate`, line 105). -/
def cancelObserved (t : FFTrace) : Bool :=
  (firstCancelIdx t).isSome

/-- Number of poll-loop iterations actually executed. -/
def loopIters (t : FFTrace) : Nat :=
  match firstCancelIdx t with
  | some i => i + 1
  | none => t.alive

/-- Boolean result of `_execute_ffmpeg` (lines 131-144): `False` if the
cancellation flag is set at the line-131 check, otherwise success exactly when
the exit code is zero. -/
def execute_ffmpeg_result (t : FFTrace) : Bool :=
  if t.cancelFinal then false else t.exitCode == 0

/-- Event trace of `_execute_ffmpeg`: spawn, register, the poll iterations,
the optional cancellation `terminate`, then reap and unregister. -/
def execute_ffmpeg_events (t : FFTrace) : List REv :=
  [REv.spawn, REv.register]
    ++ (List.range (loopIters t)).map (fun i => REv.pollIter (t.cancelAt i))
    ++ (if cancelObserved t then [REv.terminate] else [])
    ++ [REv.reap, REv.unregister]

/-- C2: if the cancellation flag is observed set while the encode is running,
the runner returns `false` — even if the process exits with code zero — and
the entry point then reports `finish false`, never `finish true`.  The
`hmono` hypothesis records that the flag is set-only during a run (the GUI
clears it only before starting a new run, `video_editor_gui.py` line 626), so
a flag observed inside the loop is still set at the line-131 check. -/
theorem runner_cancelled_never_success (t : FFTrace)
    (hobs : ∃ i, i < t.alive ∧ t.cancelAt i = true)
    (hmono : cancelObserved t = true → t.cancelFinal = true) :
    execute_ffmpeg_result t = false ∧
    (∀ (cancelBefore : Bool) (bodyMsgs : List Msg) (outcome : BodyOutcome),
      (∀ m ∈ bodyMsgs, m.isFinish = false) →
      Msg.finish true ∉ (process_entrypoint cancelBefore bodyMsgs outcome true).msgs) := by
  have hco : cancelObserved t = true := by
    obtain ⟨i, hi, hci⟩ := hobs
    have : (firstCancelIdx t).isSome := by
      rw [firstCancelIdx, List.find?_isSome]
      exact ⟨i, List.mem_range.mpr hi, hci⟩
    simpa [cancelObserved] using this
  have hcf : t.cancelFinal = true := hmono hco
  refine ⟨by simp [execute_ffmpeg_result, hcf], ?_⟩
  intro cancelBefore bodyMsgs outcome hbody hmem
  have hnof : Msg.finish true ∉ bodyMsgs := by
    intro hin
    have := hbody _ hin
    simp [Msg.isFinish] at this
  cases cancelBefore <;> cases outcome <;>
    simp_all [process_entrypoint, finallyMsgs, finalStatusText, finalStatusSev]

/-- Witness for C2: one-iteration run, flag set throughout, exit code zero. -/
theorem runner_cancelled_never_success_witness :
    execute_ffmpeg_result ⟨1, fun _ => true, 0, true⟩ = false ∧
    (∀ (cancelBefore : Bool) (bodyMsgs : List Msg) (outcome : BodyOutcome),
      (∀ m ∈ bodyMsgs, m.isFinish = false) →
      Msg.finish true ∉ (process_entrypoint cancelBefore bodyMsgs outcome true).msgs) :=
  runner_cancelled_never_success ⟨1, fun _ => true, 0, true⟩
    ⟨0, Nat.zero_lt_one, rfl⟩ (fun _ => rfl)

/-- C10: on every run of the runner — success, failure and the cancellation
path alike — the registry `add` immediately follows the spawn, and the
registry `remove` immediately follows the reap; no other registry or
process-lifecycle event occurs in between. -/
theorem runner_registry_bracket (t : FFTrace) :
    ∃ mid, execute_ffmpeg_events t =
        REv.spawn :: REv.register :: (mid ++ [REv.reap, REv.unregister]) ∧
      ∀ e ∈ mid, e ≠ REv.spawn ∧ e ≠ REv.register ∧ e ≠ REv.reap ∧ e ≠ REv.unregister := by
  refine ⟨(List.range (loopIters t)).map (fun i => REv.pollIter (t.cancelAt i))
      ++ (if cancelObserved t then [REv.terminate] else []), ?_, ?_⟩
  · simp [execute_ffmpeg_events]
  · intro e he
    rcases List.mem_append.mp he with hmap | hite
    · obtain ⟨i, _, rfl⟩ := List.mem_map.mp hmap
      refine ⟨?_, ?_, ?_, ?_⟩ <;> intro h <;> cases h
    · have : e = REv.terminate := by
        by_cases hc : cancelObserved t = true <;> simp [hc] at hite
        · exact hite
      subst this
      refine ⟨?_, ?_, ?_, ?_⟩ <;> intro h <;> cases h

/-! ## Codec policy (`_get_codec_params`, lines 169-189) -/

/-- Pattern-at-the-front test on character lists: `isPre p s` holds when `p`
is an initial segment of `s`. -/
def isPre : List Char → List Char → Bool
  | [], _ => true
  | _ :: _, [] => false
  | a :: as, b :: bs => a == b && isPre as bs

/-- Occurrence test on character lists: `hasSub s p` holds when `p` occurs
contiguously somewhere in `s` (Python's `p in s` on strings). -/
def hasSub : List Char → List Char → Bool
  | [], p => isPre p []
  | s@(_ :: t), p => isPre p s || hasSub t p

/-- Python's substring operator `needle in hay`. -/
def strIn (needle hay : String) : Bool :=
  hasSub hay.toList needle.toList

/-- The two keys `_get_codec_params` reads from the parameter dictionary:
`video_codec` (default `'Automático'`) and `available_encoders`
(default `[]`). -/
structure CodecParams where
  video_codec : String
  available_encoders : List String
deriving DecidableEq, Repr

/-- Embedding of `_get_codec_params` (lines 169-189). -/
def _get_codec_params (p : CodecParams) (force_reencode : Bool) : List String :=
  if force_reencode = false then ["-c:v", "copy"]
  else
    let auto_select_gpu := p.video_codec == "Automático" &&
      (p.available_encoders.contains "h264_nvenc" || p.available_encoders.contains "hevc_nvenc")
    let pair :=
      if auto_select_gpu || strIn "NVENC" p.video_codec then
        if p.available_encoders.contains "hevc_nvenc" &&
            (strIn "HEVC" p.video_codec || auto_select_gpu) then
          ("hevc_nvenc", ["-preset", "p4", "-cq", "23"])
        else if p.available_encoders.contains "h264_nvenc" then
          ("h264_nvenc", ["-preset", "p4", "-cq", "23"])
        else ("libx264", ["-preset", "veryfast", "-crf", "23"])
      else ("libx264", ["-preset", "veryfast", "-crf", "23"])
    ["-c:v", pair.1] ++ pair.2 ++ ["-pix_fmt", "yuv420p"]

/-- C6: codec policy.  (a) without `force_reencode` the result is always the
direct-copy fragment; (b) with `force_reencode` and no hardware encoder
detected, the software `libx264` fragment with constant-rate-factor flags;
(c) automatic mode with only `h264_nvenc` detected, the hardware-H.264
fragment with constant-quality flags; (d) automatic mode with both hardware
encoders detected, hardware HEVC is preferred over hardware H.264. -/
theorem codec_policy :
    (∀ p : CodecParams, _get_codec_params p false = ["-c:v", "copy"]) ∧
    (∀ p : CodecParams, p.available_encoders.contains "h264_nvenc" = false →
      p.available_encoders.contains "hevc_nvenc" = false →
      _get_codec_params p true =
        ["-c:v", "libx264", "-preset", "veryfast", "-crf", "23", "-pix_fmt", "yuv420p"]) ∧
    (∀ encs : List String, encs.contains "h264_nvenc" = true →
      encs.contains "hevc_nvenc" = false →
      _get_codec_params ⟨"Automático", encs⟩ true =
        ["-c:v", "h264_nvenc", "-preset", "p4", "-cq", "23", "-pix_fmt", "yuv420p"]) ∧
    (∀ encs : List String, encs.contains "h264_nvenc" = true →
      encs.contains "hevc_nvenc" = true →
      _get_codec_params ⟨"Automático", encs⟩ true =
        ["-c:v", "hevc_nvenc", "-preset", "p4", "-cq", "23", "-pix_fmt", "yuv420p"]) := by
  refine ⟨fun p => rfl, ?_, ?_, ?_⟩
  · intro p h1 h2
    have h1' : "h264_nvenc" ∉ p.available_encoders := by simpa using h1
    have h2' : "hevc_nvenc" ∉ p.available_encoders := by simpa using h2
    cases hs : strIn "NVENC" p.video_codec <;>
      simp [_get_codec_params, h1', h2', hs]
  · intro encs h1 h2
    have h1' : "h264_nvenc" ∈ encs := by simpa using h1
    have h2' : "hevc_nvenc" ∉ encs := by simpa using h2
    simp [_get_codec_params, h1', h2']
  · intro encs h1 h2
    have h1' : "h264_nvenc" ∈ encs := by simpa using h1
    have h2' : "hevc_nvenc" ∈ encs := by simpa using h2
    simp [_get_codec_params, h1', h2']

/-- Witness for C6: each branch of the policy at a concrete parameter set. -/
theorem codec_policy_witness :
    _get_codec_params ⟨"Automático", []⟩ false = ["-c:v", "copy"] ∧
    _get_codec_params ⟨"Automático", []⟩ true =
      ["-c:v", "libx264", "-preset", "veryfast", "-crf", "23", "-pix_fmt", "yuv420p"] ∧
    _get_codec_params ⟨"Automático", ["h264_nvenc"]⟩ true =
      ["-c:v", "h264_nvenc", "-preset", "p4", "-cq", "23", "-pix_fmt", "yuv420p"] ∧
    _get_codec_params ⟨"Automático", ["h264_nvenc", "hevc_nvenc"]⟩ true =
      ["-c:v", "hevc_nvenc", "-preset", "p4", "-cq", "23", "-pix_fmt", "yuv420p"] :=
  ⟨codec_policy.1 ⟨"Automático", []⟩,
   codec_policy.2.1 ⟨"Automático", []⟩ rfl rfl,
   codec_policy.2.2.1 ["h264_nvenc"] (by decide) (by decide),
   codec_policy.2.2.2 ["h264_nvenc", "hevc_nvenc"] (by decide) (by decide)⟩

/-! ## Resolution parsing (`_parse_resolution`, lines 165-167)

The source applies `re.search(r'(\d+)\s*[xX]\s*(\d+)', res_str)` and falls
back to `(1920, 1080)` when there is no match.  For this pattern,
leftmost-greedy regex search is equivalent to the deterministic scanner
embedded here: try every start position left to right; at one position take
the maximal digit run, skip whitespace, require `x`/`X`, skip whitespace,
take the maximal digit run. -/

/-- ASCII decimal digit (`\d` of the pattern, on the ASCII strings in use). -/
def isDigitCh (c : Char) : Bool := c.isDigit

/-- Python `\s` whitespace class (ASCII part). -/
def isWsCh (c : Char) : Bool :=
  c == ' ' || c == '\t' || c == '\n' || c == '\r' || c == '\x0b' || c == '\x0c'

/-- Numeric value of a digit run (what `int(match.group(i))` yields). -/
def digitsToNat (l : List Char) : Nat :=
  l.foldl (fun a c => a * 10 + (c.toNat - 48)) 0

/-- Attempt to match `(\d+)\s*[xX]\s*(\d+)` at the head of the list. -/
def matchResAt (l : List Char) : Option (Nat × Nat) :=
  let d1 := l.takeWhile isDigitCh
  if d1.isEmpty then none
  else
    match (l.dropWhile isDigitCh).dropWhile isWsCh with
    | [] => none
    | c :: r3 =>
      if c == 'x' || c == 'X' then
        let r4 := r3.dropWhile isWsCh
        let d2 := r4.takeWhile isDigitCh
        if d2.isEmpty then none else some (digitsToNat d1, digitsToNat d2)
      else none

/-- Leftmost search: try `matchResAt` at every start position. -/
def searchRes : List Char → Option (Nat × Nat)
  | [] => none
  | l@(_ :: t) =>
    match matchResAt l with
    | some r => some r
    | none => searchRes t

/-- Embedding of `_parse_resolution` (lines 165-167). -/
def _parse_resolution (s : String) : Nat × Nat :=
  match searchRes s.toList with
  | some r => r
  | none => (1920, 1080)

/-- Canonical decimal rendering of a natural number, fuelled so that it is
structurally recursive (and hence evaluates inside `decide`). -/
def natCharsAux : Nat → Nat → List Char
  | 0, _ => []
  | fuel + 1, n =>
    if n < 10 then [Char.ofNat (48 + n)]
    else natCharsAux fuel (n / 10) ++ [Char.ofNat (48 + n % 10)]

/-- Canonical decimal rendering of a natural number (digit characters). -/
def natChars (n : Nat) : List Char := natCharsAux (n + 1) n

theorem natCharsAux_fuel (f1 f2 n : Nat) (h1 : n < f1) (h2 : n < f2) :
    natCharsAux f1 n = natCharsAux f2 n := by
  induction f1 using Nat.strong_induction_on generalizing f2 n with
  | _ f1 ih =>
    match f1, f2 with
    | g1 + 1, g2 + 1 =>
      rw [natCharsAux, natCharsAux]
      by_cases hn : n < 10
      · simp [hn]
      · have hd : n / 10 < n := Nat.div_lt_self (by omega) (by omega)
        rw [if_neg hn, if_neg hn,
          ih g1 (Nat.lt_succ_self g1) g2 (n / 10) (by omega) (by omega)]

theorem natChars_eq (n : Nat) :
    natChars n = if n < 10 then [Char.ofNat (48 + n)]
      else natChars (n / 10) ++ [Char.ofNat (48 + n % 10)] := by
  rw [natChars, natCharsAux]
  by_cases hn : n < 10
  · simp [hn]
  · have hd : n / 10 < n := Nat.div_lt_self (by omega) (by omega)
    rw [if_neg hn, if_neg hn, natChars,
      natCharsAux_fuel n (n / 10 + 1) (n / 10) (by omega) (Nat.lt_succ_self _)]

theorem digitsToNat_append_singleton (a : List Char) (c : Char) :
    digitsToNat (a ++ [c]) = digitsToNat a * 10 + (c.toNat - 48) := by
  simp [digitsToNat, List.foldl_append]

theorem toNat_digit_char (d : Nat) (hd : d < 10) :
    (Char.ofNat (48 + d)).toNat = 48 + d := by
  interval_cases d <;> decide

theorem digitsToNat_natChars (n : Nat) : digitsToNat (natChars n) = n := by
  induction n using Nat.strong_induction_on with
  | _ n ih =>
    rw [natChars_eq]
    by_cases h : n < 10
    · simp only [if_pos h, digitsToNat, List.foldl]
      rw [toNat_digit_char n h]
      omega
    · rw [if_neg h, digitsToNat_append_singleton,
        ih (n / 10) (Nat.div_lt_self (by omega) (by omega)),
        toNat_digit_char (n % 10) (Nat.mod_lt _ (by omega))]
      omega

theorem natChars_all_digits (n : Nat) : ∀ c ∈ natChars n, isDigitCh c = true := by
  induction n using Nat.strong_induction_on with
  | _ n ih =>
    rw [natChars_eq]
    by_cases h : n < 10
    · simp only [if_pos h, List.mem_singleton]
      rintro c rfl
      interval_cases n <;> decide
    · rw [if_neg h]
      intro c hc
      rcases List.mem_append.mp hc with hc | hc
      · exact ih (n / 10) (Nat.div_lt_self (by omega) (by omega)) c hc
      · rw [List.mem_singleton.mp hc]
        have : n % 10 < 10 := Nat.mod_lt _ (by omega)
        interval_cases hn : n % 10 <;> simp_all <;> decide

theorem natChars_ne_nil (n : Nat) : natChars n ≠ [] := by
  rw [natChars_eq]
  by_cases h : n < 10
  · simp [h]
  · simp only [if_neg h]
    intro hco
    exact absurd (List.append_eq_nil.mp hco).2 (by simp)

theorem digit_not_ws (c : Char) (h : isDigitCh c = true) : isWsCh c = false := by
  cases hw : isWsCh c
  · rfl
  · exfalso
    simp only [isWsCh, Bool.or_eq_true, beq_iff_eq] at hw
    rcases hw with ((((rfl | rfl) | rfl) | rfl) | rfl) | rfl <;> simp [isDigitCh] at h

theorem matchResAt_nondigit_head (c : Char) (l : List Char)
    (hc : isDigitCh c = false) : matchResAt (c :: l) = none := by
  simp [matchResAt, List.takeWhile_cons, hc]

theorem searchRes_append_nondigits (a r : List Char)
    (ha : ∀ c ∈ a, isDigitCh c = false) : searchRes (a ++ r) = searchRes r := by
  induction a with
  | nil => rfl
  | cons c t iht =>
    rw [List.cons_append, searchRes,
      matchResAt_nondigit_head c _ (ha c (List.mem_cons_self c t))]
    exact iht (fun x hx => ha x (List.mem_cons_of_mem c hx))

theorem takeWhile_digits_append (d : List Char) (x : Char) (r : List Char)
    (hd : ∀ c ∈ d, isDigitCh c = true) (hx : isDigitCh x = false) :
    (d ++ x :: r).takeWhile isDigitCh = d ∧ (d ++ x :: r).dropWhile isDigitCh = x :: r := by
  induction d with
  | nil => simp [List.takeWhile_cons, List.dropWhile_cons, hx]
  | cons c t iht =>
    have hc : isDigitCh c = true := hd c (List.mem_cons_self c t)
    have iht' := iht (fun y hy => hd y (List.mem_cons_of_mem c hy))
    simp [List.takeWhile_cons, List.dropWhile_cons, hc, iht'.1, iht'.2]

theorem matchResAt_digit_pair (d1 d2 : List Char) (x : Char)
    (h1 : d1 ≠ []) (hd1 : ∀ c ∈ d1, isDigitCh c = true)
    (h2 : d2 ≠ []) (hd2 : ∀ c ∈ d2, isDigitCh c = true)
    (hx : x = 'x' ∨ x = 'X') :
    matchResAt (d1 ++ x :: (d2 ++ [')'])) = some (digitsToNat d1, digitsToNat d2) := by
  have hxd : isDigitCh x = false := by rcases hx with rfl | rfl <;> decide
  have hxw : isWsCh x = false := by rcases hx with rfl | rfl <;> decide
  have hxx : (x == 'x' || x == 'X') = true := by rcases hx with rfl | rfl <;> simp
  obtain ⟨c2, t2, rfl⟩ := List.exists_cons_of_ne_nil h2
  obtain ⟨c1, t1, rfl⟩ := List.exists_cons_of_ne_nil h1
  have hc2 : isDigitCh c2 = true := hd2 c2 (List.mem_cons_self c2 t2)
  have hspan := takeWhile_digits_append (c1 :: t1) x ((c2 :: t2) ++ [')']) hd1 hxd
  have hspan2 := takeWhile_digits_append (c2 :: t2) ')' [] hd2 (by decide)
  simp only [List.cons_append, List.append_nil] at hspan hspan2 ⊢
  simp [matchResAt, hspan.1, hspan.2, List.dropWhile_cons, hxw, hxx,
    digit_not_ws c2 hc2, hspan2.1]

theorem searchRes_cons_some (c : Char) (t : List Char) (r : Nat × Nat)
    (h : matchResAt (c :: t) = some r) : searchRes (c :: t) = some r := by
  rw [searchRes, h]

theorem searchRes_append_no_early (a r : List Char)
    (h : ∀ i, i < a.length → matchResAt ((a ++ r).drop i) = none) :
    searchRes (a ++ r) = searchRes r := by
  induction a with
  | nil => rfl
  | cons c t iht =>
    have h0 := h 0 (by simp)
    simp only [List.drop_zero, List.cons_append] at h0
    rw [List.cons_append, searchRes, h0]
    exact iht (fun i hi => by
      have := h (i + 1) (by simpa using Nat.succ_lt_succ hi)
      simpa using this)

theorem searchRes_eq_none_of_drops (l : List Char)
    (h : ∀ i, matchResAt (l.drop i) = none) : searchRes l = none := by
  induction l with
  | nil => rfl
  | cons c t iht =>
    have h0 := h 0
    simp only [List.drop_zero] at h0
    rw [searchRes, h0]
    exact iht (fun i => by simpa using h (i + 1))

/-- C8 (amended): the parser returns the leftmost
`digits-whitespace-x-whitespace-digits` match.  (i) For strings of the form
`<label> (<W>x<H>)` whose label part contains no earlier such match, parsing
returns exactly `(W, H)`; (ii) for strings in which no position matches the
pattern, parsing returns `(1920, 1080)`. -/
theorem resolution_parsing_amended :
    (∀ (label : String) (w h : Nat),
      (∀ i, i < label.length + 2 →
        matchResAt ((label ++ " (" ++ String.mk (natChars w) ++ "x"
          ++ String.mk (natChars h) ++ ")").toList.drop i) = none) →
      _parse_resolution (label ++ " (" ++ String.mk (natChars w) ++ "x"
        ++ String.mk (natChars h) ++ ")") = (w, h)) ∧
    (∀ s : String, (∀ i, matchResAt (s.toList.drop i) = none) →
      _parse_resolution s = (1920, 1080)) := by
  constructor
  · intro label w h hpre
    have e1 : " (".data = [' ', '('] := rfl
    have e2 : "x".data = ['x'] := rfl
    have e3 : ")".data = [')'] := rfl
    have hdata : (label ++ " (" ++ String.mk (natChars w) ++ "x"
        ++ String.mk (natChars h) ++ ")").data
        = (label.data ++ [' ', '(']) ++ (natChars w ++ 'x' :: (natChars h ++ [')'])) := by
      have e4 : ∀ l : List Char, (String.mk l).data = l := fun _ => rfl
      simp only [String.data_append, e1, e2, e3, e4]
      simp [List.append_assoc]
    have hlen : (label.data ++ [' ', '(']).length = label.length + 2 := by
      rw [List.length_append]
      rfl
    have hmain : matchResAt (natChars w ++ 'x' :: (natChars h ++ [')'])) = some (w, h) := by
      rw [matchResAt_digit_pair (natChars w) (natChars h) 'x' (natChars_ne_nil w)
        (natChars_all_digits w) (natChars_ne_nil h) (natChars_all_digits h) (Or.inl rfl),
        digitsToNat_natChars, digitsToNat_natChars]
    have hsearch : searchRes ((label.data ++ [' ', '('])
        ++ (natChars w ++ 'x' :: (natChars h ++ [')']))) = some (w, h) := by
      rw [searchRes_append_no_early _ _ (fun i hi => by
        have := hpre i (by omega)
        rw [String.toList, hdata] at this
        exact this)]
      obtain ⟨c1, t1, he⟩ := List.exists_cons_of_ne_nil (natChars_ne_nil w)
      rw [he, List.cons_append] at hmain ⊢
      exact searchRes_cons_some _ _ _ hmain
    rw [_parse_resolution, String.toList, hdata, hsearch]
  · intro s hs
    rw [_parse_resolution, searchRes_eq_none_of_drops s.toList hs]

/-- Witness for C8 (amended): the repository's own test vector
`"720p (1280x720)"` parses to `(1280, 720)`, and `"invalid"` parses to the
default `(1920, 1080)`. -/
theorem resolution_parsing_amended_witness :
    _parse_resolution ("720p" ++ " (" ++ String.mk (natChars 1280) ++ "x"
      ++ String.mk (natChars 720) ++ ")") = (1280, 720) ∧
    _parse_resolution "invalid" = (1920, 1080) := by
  constructor
  · refine resolution_parsing_amended.1 "720p" 1280 720 ?_
    intro i hi
    have hi' : i < 6 := by simpa using hi
    interval_cases i <;> decide
  · refine resolution_parsing_amended.2 "invalid" ?_
    intro i
    by_cases hi : i < 7
    · interval_cases i <;> decide
    · rw [List.drop_eq_nil_of_le (by simp [String.toList]; omega)]
      decide

/-- C8 counterexample: the claim is false in both directions at concrete
inputs.  `"640x480"` does not match the pattern `<label> (<W>x<H>)` (it
contains no parenthesis) yet parses to `(640, 480)` instead of the claimed
default `(1920, 1080)`; and `"2x4 (1920x1080)"` does match the pattern (label
`"2x4"`) yet parses to `(2, 4)`, not `(1920, 1080)`. -/
theorem resolution_parsing_counterexample :
    (¬ ∃ (label d1 d2 : String),
        "640x480" = label ++ " (" ++ d1 ++ "x" ++ d2 ++ ")") ∧
    _parse_resolution "640x480" = (640, 480) ∧
    ("2x4 (1920x1080)" = "2x4" ++ " (" ++ String.mk (natChars 1920) ++ "x"
      ++ String.mk (natChars 1080) ++ ")") ∧
    _parse_resolution "2x4 (1920x1080)" = (2, 4) := by
  refine ⟨?_, by decide, by decide, by decide⟩
  rintro ⟨l, d1, d2, heq⟩
  have hmem : '(' ∈ ("640x480").data := by
    rw [heq]
    simp only [String.data_append, List.mem_append]
    have h2 : '(' ∈ " (".data := by decide
    tauto
  exact absurd hmem (by decide)

/-! ## Subtitle style formatting (`_build_subtitle_style_string`, lines 191-219)

The formatter builds an ordered dictionary of eleven `key=value` pairs and
joins them with commas.  It is embedded at character-list level so that
substring occurrence counts can be reasoned about.  The embedding renders
integers with a canonical decimal writer (`natChars`/`intChars`, matching
Python `str` on the values in range); `MarginV = int(fontsize * 0.7)` is
embedded as `fontsize * 7 / 10` — the float truncation of the source can
differ from this by at most one unit on some sizes, which no claim settled
here depends on (its rendering is decimal digits either way). -/

/-- Style record consumed by the formatter: the `subtitle_style` dictionary
assembled by the GUI (`fontsize`, `text_color`, `outline_color`, `bold`,
`italic`, `position`, `font_file`, `position_map`).  An absent or empty
`font_file`/`position` is `none`. -/
structure SubStyle where
  font_file : Option String
  fontsize : Nat
  text_color : String
  outline_color : String
  bold : Bool
  italic : Bool
  position : Option String
  position_map : List (String × Int)
deriving DecidableEq, Repr

/-- Decimal rendering of a Python `int` (`str(i)`). -/
def intChars (i : Int) : List Char :=
  if i < 0 then '-' :: natChars i.natAbs else natChars i.toNat

/-- Case-insensitive ASCII hexadecimal digit. -/
def isHexDigitCh (c : Char) : Bool :=
  (decide (48 ≤ c.toNat) && decide (c.toNat ≤ 57))
    || (decide (97 ≤ c.toNat) && decide (c.toNat ≤ 102))
    || (decide (65 ≤ c.toNat) && decide (c.toNat ≤ 70))

/-- Upper-case-or-digit ASCII hexadecimal digit (what `.upper()` produces). -/
def isUpperHexCh (c : Char) : Bool :=
  (decide (48 ≤ c.toNat) && decide (c.toNat ≤ 57))
    || (decide (65 ≤ c.toNat) && decide (c.toNat ≤ 70))

/-- Python `str.lstrip('#')`: remove every leading `#`. -/
def lstripHash : List Char → List Char
  | '#' :: t => lstripHash t
  | l => l

/-- Embedding of the inner `to_ass_color` (lines 198-200): strip leading
`#`; a six-character remainder is reordered `BBGGRR` behind `&H` and
upper-cased, anything else yields the opaque-white token `&H00FFFFFF`. -/
def to_ass_color (hex_color : String) : List Char :=
  let c := lstripHash hex_color.data
  if c.length = 6 then
    ('&' :: 'H' :: ((c.drop 4).take 2 ++ (c.drop 2).take 2 ++ c.take 2)).map Char.toUpper
  else "&H00FFFFFF".data

/-- Final path component (chars after the last `/` or `\`), as
`pathlib.Path(...).name`. -/
def lastComponent (l : List Char) : List Char :=
  l.foldl (fun acc c => if c = '/' || c = '\\' then [] else acc ++ [c]) []

/-- Characters before the last `.` of a list, when a `.` is present. -/
def beforeLastDot : List Char → Option (List Char)
  | [] => none
  | c :: t =>
    match beforeLastDot t with
    | some r => some (c :: r)
    | none => if c = '.' then some [] else none

/-- Embedding of `pathlib.Path(s).stem`: the final component without its
suffix; a suffix exists when the last dot sits strictly inside the name
(`0 < i < len(name) - 1` in CPython's `rfind`-based rule). -/
def pathStem (s : String) : List Char :=
  let name := lastComponent s.data
  match beforeLastDot name with
  | some r => if 0 < r.length ∧ r.length < name.length - 1 then r else name
  | none => name

/-- Font name of line 202: the font file's stem, or `'Arial'`. -/
def fontNameOf (s : SubStyle) : List Char :=
  match s.font_file with
  | some f => pathStem f
  | none => "Arial".data

/-- Alignment of line 215: `position_map.get(position, 2)`. -/
def alignmentOf (s : SubStyle) : Int :=
  match s.position with
  | none => 2
  | some p =>
    match s.position_map.lookup p with
    | some v => v
    | none => 2

/-- The five field labels of the claim, as character lists. -/
def labFontName : List Char := ['F', 'o', 'n', 't', 'N', 'a', 'm', 'e', '=']

def labFontSize : List Char := ['F', 'o', 'n', 't', 'S', 'i', 'z', 'e', '=']

def labPrimaryColour : List Char :=
  ['P', 'r', 'i', 'm', 'a', 'r', 'y', 'C', 'o', 'l', 'o', 'u', 'r', '=']

def labOutlineColour : List Char :=
  ['O', 'u', 't', 'l', 'i', 'n', 'e', 'C', 'o', 'l', 'o', 'u', 'r', '=']

def labAlignment : List Char := ['A', 'l', 'i', 'g', 'n', 'm', 'e', 'n', 't', '=']

/-- The eleven `key=value` segments of the style dictionary, in source
order (lines 205-217). -/
def segFontName (s : SubStyle) : List Char := labFontName ++ fontNameOf s

def segFontSize (s : SubStyle) : List Char := labFontSize ++ natChars s.fontsize

def segPrimaryColour (s : SubStyle) : List Char :=
  labPrimaryColour ++ to_ass_color s.text_color

def segOutlineColour (s : SubStyle) : List Char :=
  labOutlineColour ++ to_ass_color s.outline_color

def segBorderStyle : List Char :=
  ['B', 'o', 'r', 'd', 'e', 'r', 'S', 't', 'y', 'l', 'e', '='] ++ natChars 1

def segOutline : List Char := ['O', 'u', 't', 'l', 'i', 'n', 'e', '='] ++ natChars 2

def segShadow : List Char := ['S', 'h', 'a', 'd', 'o', 'w', '='] ++ natChars 1

def segBold (s : SubStyle) : List Char :=
  ['B', 'o', 'l', 'd', '='] ++ intChars (if s.bold then -1 else 0)

def segItalic (s : SubStyle) : List Char :=
  ['I', 't', 'a', 'l', 'i', 'c', '='] ++ intChars (if s.italic then -1 else 0)

def segAlignment (s : SubStyle) : List Char := labAlignment ++ intChars (alignmentOf s)

def segMarginV (s : SubStyle) : List Char :=
  ['M', 'a', 'r', 'g', 'i', 'n', 'V', '='] ++ natChars (s.fontsize * 7 / 10)

/-- Python `",".join(...)`. -/
def joinCommas : List (List Char) → List Char
  | [] => []
  | [x] => x
  | x :: xs => x ++ ',' :: joinCommas xs

/-- Character list of the formatted style string (line 219). -/
def styleChars (s : SubStyle) : List Char :=
  joinCommas [segFontName s, segFontSize s, segPrimaryColour s, segOutlineColour s,
    segBorderStyle, segOutline, segShadow, segBold s, segItalic s, segAlignment s,
    segMarginV s]

/-- Embedding of `_build_subtitle_style_string`. -/
def _build_subtitle_style_string (s : SubStyle) : String := String.mk (styleChars s)

/-! Occurrence counting of a pattern in a character list, and the lemmas
needed to count the field labels in the formatted style string. -/

/-- Number of (possibly overlapping) occurrences of `p` in `s`. -/
def countOccs : List Char → List Char → Nat
  | [], _ => 0
  | s@(_ :: t), p => (if isPre p s then 1 else 0) + countOccs t p

/-- Occurrences of `p` starting inside `L` within the list `L ++ v`. -/
def occsIn : List Char → List Char → List Char → Nat
  | [], _, _ => 0
  | s@(_ :: t), v, p => (if isPre p (s ++ v) then 1 else 0) + occsIn t v p

theorem isPre_length_le (p s : List Char) (h : isPre p s = true) :
    p.length ≤ s.length := by
  induction p generalizing s with
  | nil => simp
  | cons q qs ih =>
    cases s with
    | nil => simp [isPre] at h
    | cons x t =>
      simp only [isPre, Bool.and_eq_true] at h
      simpa using ih t h.2

theorem isPre_self_append (p v : List Char) : isPre p (p ++ v) = true := by
  induction p with
  | nil => rfl
  | cons q qs ih => simp [isPre, ih]

theorem isPre_mem (p s : List Char) (c : Char) (h : isPre p s = true) (hc : c ∈ p) :
    c ∈ s := by
  induction p generalizing s with
  | nil => simp at hc
  | cons q qs ih =>
    cases s with
    | nil => simp [isPre] at h
    | cons x t =>
      simp only [isPre, Bool.and_eq_true, beq_iff_eq] at h
      rcases List.mem_cons.mp hc with rfl | hc
      · exact h.1 ▸ List.mem_cons_self _ _
      · exact List.mem_cons_of_mem _ (ih t h.2 hc)

theorem isPre_append_take (p a v : List Char) (h : isPre p (a ++ v) = true) :
    isPre (p.take a.length) a = true := by
  induction a generalizing p with
  | nil => cases p <;> rfl
  | cons x as ih =>
    cases p with
    | nil => rfl
    | cons q qs =>
      simp only [List.cons_append, isPre, Bool.and_eq_true] at h
      simp only [List.length_cons, List.take_succ_cons, isPre, Bool.and_eq_true]
      exact ⟨h.1, ih qs h.2⟩

theorem isPre_take_false (p a v : List Char)
    (h : isPre (p.take a.length) a = false) : isPre p (a ++ v) = false := by
  cases hv : isPre p (a ++ v)
  · rfl
  · rw [isPre_append_take p a v hv] at h
    exact h

theorem isPre_append_skip (p : List Char) (c : Char) (hc : c ∉ p)
    (a b : List Char) : isPre p (a ++ c :: b) = isPre p a := by
  induction p generalizing a with
  | nil => rfl
  | cons q qs ih =>
    have hqc : (q == c) = false := by
      simp only [beq_eq_false_iff_ne]
      intro h
      exact hc (h ▸ List.mem_cons_self q qs)
    cases a with
    | nil => simp [isPre, hqc]
    | cons x as =>
      simp only [List.cons_append, isPre, List.append_eq]
      rw [ih (fun h => hc (List.mem_cons_of_mem q h)) as]

theorem countOccs_append_split (L v p : List Char) :
    countOccs (L ++ v) p = occsIn L v p + countOccs v p := by
  induction L with
  | nil => simp [occsIn]
  | cons c t ih =>
    simp only [List.cons_append, countOccs, occsIn, List.append_eq, ih, List.cons_append]
    omega

theorem occsIn_zero (L v p : List Char)
    (h : ∀ i, i < L.length → isPre (p.take (L.drop i).length) (L.drop i) = false) :
    occsIn L v p = 0 := by
  induction L with
  | nil => rfl
  | cons c t ih =>
    have h0 := h 0 (by simp)
    simp only [List.drop_zero] at h0
    rw [occsIn, isPre_take_false p (c :: t) v h0]
    simp only [Bool.false_eq_true, if_false, Nat.zero_add]
    exact ih (fun i hi => by simpa using h (i + 1) (by simpa using Nat.succ_lt_succ hi))

theorem countOccs_zero_of_not_mem (v p : List Char) (c : Char)
    (hcp : c ∈ p) (hcv : c ∉ v) : countOccs v p = 0 := by
  induction v with
  | nil => rfl
  | cons x t ih =>
    rw [countOccs]
    have hind : isPre p (x :: t) = false := by
      cases hv : isPre p (x :: t)
      · rfl
      · exact absurd (isPre_mem p (x :: t) c hv hcp) hcv
    rw [hind]
    simp only [Bool.false_eq_true, if_false, Nat.zero_add]
    exact ih (fun h => hcv (List.mem_cons_of_mem x h))

theorem countOccs_zero_of_short (v p : List Char) (h : v.length < p.length) :
    countOccs v p = 0 := by
  induction v with
  | nil => rfl
  | cons x t ih =>
    rw [countOccs]
    have hind : isPre p (x :: t) = false := by
      cases hv : isPre p (x :: t)
      · rfl
      · exact absurd (isPre_length_le p (x :: t) hv) (by omega)
    rw [hind]
    simp only [Bool.false_eq_true, if_false, Nat.zero_add]
    exact ih (by simp at h ⊢; omega)

theorem countOccs_comma_split (a b p : List Char) (hc : ',' ∉ p) (hp : p ≠ []) :
    countOccs (a ++ ',' :: b) p = countOccs a p + countOccs b p := by
  induction a with
  | nil =>
    obtain ⟨q, qs, rfl⟩ := List.exists_cons_of_ne_nil hp
    have hqc : (q == ',') = false := by
      simp only [beq_eq_false_iff_ne]
      intro h
      exact hc (h ▸ List.mem_cons_self q qs)
    simp [countOccs, isPre, hqc]
  | cons x t ih =>
    simp only [List.cons_append, countOccs, List.append_eq, ih]
    have hskip : isPre p (x :: (t ++ ',' :: b)) = isPre p (x :: t) := by
      have := isPre_append_skip p ',' hc (x :: t) b
      simpa using this
    simp only [hskip]
    omega

theorem toNat_ofNat_small (n : Nat) (h : n < 55296) : (Char.ofNat n).toNat = n := by
  simp [Char.ofNat, Nat.isValidChar, h, Char.toNat, Char.ofNatAux, UInt32.toNat,
    UInt32.ofNat']

theorem upperHex_toUpper (d : Char) (hd : isHexDigitCh d = true) :
    isUpperHexCh (Char.toUpper d) = true := by
  simp only [isHexDigitCh, Bool.or_eq_true, Bool.and_eq_true, decide_eq_true_eq] at hd
  simp only [Char.toUpper]
  by_cases h : d.toNat ≥ 97 ∧ d.toNat ≤ 122
  · rw [if_pos h]
    have hv : (Char.ofNat (d.toNat - 32)).toNat = d.toNat - 32 :=
      toNat_ofNat_small _ (by omega)
    simp only [isUpperHexCh, Bool.or_eq_true, Bool.and_eq_true, decide_eq_true_eq, hv]
    omega
  · rw [if_neg h]
    simp only [isUpperHexCh, Bool.or_eq_true, Bool.and_eq_true, decide_eq_true_eq]
    omega

theorem not_mem_natChars (c : Char) (hc : isDigitCh c = false) (n : Nat) :
    c ∉ natChars n := fun h => by
  rw [natChars_all_digits n c h] at hc
  cases hc

theorem countOccs_natChars (n : Nat) (p : List Char) (hp : '=' ∈ p) :
    countOccs (natChars n) p = 0 :=
  countOccs_zero_of_not_mem _ _ '=' hp (not_mem_natChars '=' (by decide) n)

theorem not_mem_intChars (i : Int) : '=' ∉ intChars i := by
  rw [intChars]
  by_cases h : i < 0
  · rw [if_pos h]
    intro hm
    rcases List.mem_cons.mp hm with h1 | h1
    · exact absurd h1 (by decide)
    · exact not_mem_natChars '=' (by decide) _ h1
  · rw [if_neg h]
    exact not_mem_natChars '=' (by decide) _

theorem countOccs_intChars (i : Int) (p : List Char) (hp : '=' ∈ p) :
    countOccs (intChars i) p = 0 :=
  countOccs_zero_of_not_mem _ _ '=' hp (not_mem_intChars i)

theorem to_ass_color_len (col : String) :
    (to_ass_color col).length = 8 ∨ to_ass_color col = "&H00FFFFFF".data := by
  simp only [to_ass_color]
  by_cases h : (lstripHash col.data).length = 6
  · left
    rw [if_pos h]
    simp [List.length_take, List.length_drop, h]
  · right
    rw [if_neg h]

theorem countOccs_color (col : String) (p : List Char) (h9 : 9 ≤ p.length)
    (hw : countOccs ("&H00FFFFFF".data) p = 0) : countOccs (to_ass_color col) p = 0 := by
  rcases to_ass_color_len col with h | h
  · exact countOccs_zero_of_short _ _ (by omega)
  · rw [h]
    exact hw

theorem styleChars_decomp (s : SubStyle) :
    styleChars s = segFontName s ++ ',' :: (segFontSize s ++ ',' ::
      (segPrimaryColour s ++ ',' :: (segOutlineColour s ++ ',' ::
      (segBorderStyle ++ ',' :: (segOutline ++ ',' :: (segShadow ++ ',' ::
      (segBold s ++ ',' :: (segItalic s ++ ',' ::
      (segAlignment s ++ ',' :: segMarginV s))))))))) := rfl

theorem countOccs_labFontName (s : SubStyle)
    (hf : countOccs (fontNameOf s) labFontName = 0) :
    countOccs (styleChars s) labFontName = 1 := by
  have hc : ',' ∉ labFontName := by decide
  have hp : labFontName ≠ [] := by decide
  rw [styleChars_decomp,
    countOccs_comma_split _ _ _ hc hp, countOccs_comma_split _ _ _ hc hp,
    countOccs_comma_split _ _ _ hc hp, countOccs_comma_split _ _ _ hc hp,
    countOccs_comma_split _ _ _ hc hp, countOccs_comma_split _ _ _ hc hp,
    countOccs_comma_split _ _ _ hc hp, countOccs_comma_split _ _ _ hc hp,
    countOccs_comma_split _ _ _ hc hp, countOccs_comma_split _ _ _ hc hp,
    segFontName, segFontSize, segPrimaryColour, segOutlineColour, segBorderStyle,
    segOutline, segShadow, segBold, segItalic, segAlignment, segMarginV]
  simp only [countOccs_append_split]
  have hown : occsIn labFontName (fontNameOf s) labFontName = 1 := by
    rw [show occsIn labFontName (fontNameOf s) labFontName
        = (if isPre labFontName (labFontName ++ fontNameOf s) then 1 else 0)
          + occsIn ['o', 'n', 't', 'N', 'a', 'm', 'e', '='] (fontNameOf s) labFontName
        from rfl,
      isPre_self_append, occsIn_zero _ _ _ (by decide)]
    simp
  rw [hown, hf,
    occsIn_zero labFontSize _ _ (by decide),
    occsIn_zero labPrimaryColour _ _ (by decide),
    occsIn_zero labOutlineColour _ _ (by decide),
    occsIn_zero ['B', 'o', 'r', 'd', 'e', 'r', 'S', 't', 'y', 'l', 'e', '='] _ _ (by decide),
    occsIn_zero ['O', 'u', 't', 'l', 'i', 'n', 'e', '='] _ _ (by decide),
    occsIn_zero ['S', 'h', 'a', 'd', 'o', 'w', '='] _ _ (by decide),
    occsIn_zero ['B', 'o', 'l', 'd', '='] _ _ (by decide),
    occsIn_zero ['I', 't', 'a', 'l', 'i', 'c', '='] _ _ (by decide),
    occsIn_zero labAlignment _ _ (by decide),
    occsIn_zero ['M', 'a', 'r', 'g', 'i', 'n', 'V', '='] _ _ (by decide),
    countOccs_natChars _ _ (by decide), countOccs_natChars _ _ (by decide),
    countOccs_natChars _ _ (by decide), countOccs_natChars _ _ (by decide),
    countOccs_intChars _ _ (by decide), countOccs_intChars _ _ (by decide),
    countOccs_intChars _ _ (by decide),
    countOccs_color _ _ (by decide) (by decide),
    countOccs_color _ _ (by decide) (by decide)]

theorem countOccs_labFontSize (s : SubStyle)
    (hf : countOccs (fontNameOf s) labFontSize = 0) :
    countOccs (styleChars s) labFontSize = 1 := by
  have hc : ',' ∉ labFontSize := by decide
  have hp : labFontSize ≠ [] := by decide
  rw [styleChars_decomp,
    countOccs_comma_split _ _ _ hc hp, countOccs_comma_split _ _ _ hc hp,
    countOccs_comma_split _ _ _ hc hp, countOccs_comma_split _ _ _ hc hp,
    countOccs_comma_split _ _ _ hc hp, countOccs_comma_split _ _ _ hc hp,
    countOccs_comma_split _ _ _ hc hp, countOccs_comma_split _ _ _ hc hp,
    countOccs_comma_split _ _ _ hc hp, countOccs_comma_split _ _ _ hc hp,
    segFontName, segFontSize, segPrimaryColour, segOutlineColour, segBorderStyle,
    segOutline, segShadow, segBold, segItalic, segAlignment, segMarginV]
  simp only [countOccs_append_split]
  have hown : occsIn labFontSize (natChars s.fontsize) labFontSize = 1 := by
    rw [show occsIn labFontSize (natChars s.fontsize) labFontSize
        = (if isPre labFontSize (labFontSize ++ natChars s.fontsize) then 1 else 0)
          + occsIn ['o', 'n', 't', 'S', 'i', 'z', 'e', '='] (natChars s.fontsize) labFontSize
        from rfl,
      isPre_self_append, occsIn_zero _ _ _ (by decide)]
    simp
  rw [hown, hf,
    occsIn_zero labFontName _ _ (by decide),
    occsIn_zero labPrimaryColour _ _ (by decide),
    occsIn_zero labOutlineColour _ _ (by decide),
    occsIn_zero ['B', 'o', 'r', 'd', 'e', 'r', 'S', 't', 'y', 'l', 'e', '='] _ _ (by decide),
    occsIn_zero ['O', 'u', 't', 'l', 'i', 'n', 'e', '='] _ _ (by decide),
    occsIn_zero ['S', 'h', 'a', 'd', 'o', 'w', '='] _ _ (by decide),
    occsIn_zero ['B', 'o', 'l', 'd', '='] _ _ (by decide),
    occsIn_zero ['I', 't', 'a', 'l', 'i', 'c', '='] _ _ (by decide),
    occsIn_zero labAlignment _ _ (by decide),
    occsIn_zero ['M', 'a', 'r', 'g', 'i', 'n', 'V', '='] _ _ (by decide),
    countOccs_natChars _ _ (by decide), countOccs_natChars _ _ (by decide),
    countOccs_natChars _ _ (by decide), countOccs_natChars _ _ (by decide),
    countOccs_intChars _ _ (by decide), countOccs_intChars _ _ (by decide),
    countOccs_intChars _ _ (by decide),
    countOccs_color _ _ (by decide) (by decide),
    countOccs_color _ _ (by decide) (by decide)]

theorem countOccs_labPrimaryColour (s : SubStyle)
    (hf : countOccs (fontNameOf s) labPrimaryColour = 0) :
    countOccs (styleChars s) labPrimaryColour = 1 := by
  have hc : ',' ∉ labPrimaryColour := by decide
  have hp : labPrimaryColour ≠ [] := by decide
  rw [styleChars_decomp,
    countOccs_comma_split _ _ _ hc hp, countOccs_comma_split _ _ _ hc hp,
    countOccs_comma_split _ _ _ hc hp, countOccs_comma_split _ _ _ hc hp,
    countOccs_comma_split _ _ _ hc hp, countOccs_comma_split _ _ _ hc hp,
    countOccs_comma_split _ _ _ hc hp, countOccs_comma_split _ _ _ hc hp,
    countOccs_comma_split _ _ _ hc hp, countOccs_comma_split _ _ _ hc hp,
    segFontName, segFontSize, segPrimaryColour, segOutlineColour, segBorderStyle,
    segOutline, segShadow, segBold, segItalic, segAlignment, segMarginV]
  simp only [countOccs_append_split]
  have hown : occsIn labPrimaryColour (to_ass_color s.text_color) labPrimaryColour = 1 := by
    rw [show occsIn labPrimaryColour (to_ass_color s.text_color) labPrimaryColour
        = (if isPre labPrimaryColour (labPrimaryColour ++ to_ass_color s.text_color)
            then 1 else 0)
          + occsIn ['r', 'i', 'm', 'a', 'r', 'y', 'C', 'o', 'l', 'o', 'u', 'r', '=']
            (to_ass_color s.text_color) labPrimaryColour
        from rfl,
      isPre_self_append, occsIn_zero _ _ _ (by decide)]
    simp
  rw [hown, hf,
    occsIn_zero labFontName _ _ (by decide),
    occsIn_zero labFontSize _ _ (by decide),
    occsIn_zero labOutlineColour _ _ (by decide),
    occsIn_zero ['B', 'o', 'r', 'd', 'e', 'r', 'S', 't', 'y', 'l', 'e', '='] _ _ (by decide),
    occsIn_zero ['O', 'u', 't', 'l', 'i', 'n', 'e', '='] _ _ (by decide),
    occsIn_zero ['S', 'h', 'a', 'd', 'o', 'w', '='] _ _ (by decide),
    occsIn_zero ['B', 'o', 'l', 'd', '='] _ _ (by decide),
    occsIn_zero ['I', 't', 'a', 'l', 'i', 'c', '='] _ _ (by decide),
    occsIn_zero labAlignment _ _ (by decide),
    occsIn_zero ['M', 'a', 'r', 'g', 'i', 'n', 'V', '='] _ _ (by decide),
    countOccs_natChars _ _ (by decide), countOccs_natChars _ _ (by decide),
    countOccs_natChars _ _ (by decide), countOccs_natChars _ _ (by decide),
    countOccs_intChars _ _ (by decide), countOccs_intChars _ _ (by decide),
    countOccs_intChars _ _ (by decide),
    countOccs_color _ _ (by decide) (by decide),
    countOccs_color _ _ (by decide) (by decide)]

theorem countOccs_labOutlineColour (s : SubStyle)
    (hf : countOccs (fontNameOf s) labOutlineColour = 0) :
    countOccs (styleChars s) labOutlineColour = 1 := by
  have hc : ',' ∉ labOutlineColour := by decide
  have hp : labOutlineColour ≠ [] := by decide
  rw [styleChars_decomp,
    countOccs_comma_split _ _ _ hc hp, countOccs_comma_split _ _ _ hc hp,
    countOccs_comma_split _ _ _ hc hp, countOccs_comma_split _ _ _ hc hp,
    countOccs_comma_split _ _ _ hc hp, countOccs_comma_split _ _ _ hc hp,
    countOccs_comma_split _ _ _ hc hp, countOccs_comma_split _ _ _ hc hp,
    countOccs_comma_split _ _ _ hc hp, countOccs_comma_split _ _ _ hc hp,
    segFontName, segFontSize, segPrimaryColour, segOutlineColour, segBorderStyle,
    segOutline, segShadow, segBold, segItalic, segAlignment, segMarginV]
  simp only [countOccs_append_split]
  have hown : occsIn labOutlineColour (to_ass_color s.outline_color) labOutlineColour = 1 := by
    rw [show occsIn labOutlineColour (to_ass_color s.outline_color) labOutlineColour
        = (if isPre labOutlineColour (labOutlineColour ++ to_ass_color s.outline_color)
            then 1 else 0)
          + occsIn ['u', 't', 'l', 'i', 'n', 'e', 'C', 'o', 'l', 'o', 'u', 'r', '=']
            (to_ass_color s.outline_color) labOutlineColour
        from rfl,
      isPre_self_append, occsIn_zero _ _ _ (by decide)]
    simp
  rw [hown, hf,
    occsIn_zero labFontName _ _ (by decide),
    occsIn_zero labFontSize _ _ (by decide),
    occsIn_zero labPrimaryColour _ _ (by decide),
    occsIn_zero ['B', 'o', 'r', 'd', 'e', 'r', 'S', 't', 'y', 'l', 'e', '='] _ _ (by decide),
    occsIn_zero ['O', 'u', 't', 'l', 'i', 'n', 'e', '='] _ _ (by decide),
    occsIn_zero ['S', 'h', 'a', 'd', 'o', 'w', '='] _ _ (by decide),
    occsIn_zero ['B', 'o', 'l', 'd', '='] _ _ (by decide),
    occsIn_zero ['I', 't', 'a', 'l', 'i', 'c', '='] _ _ (by decide),
    occsIn_zero labAlignment _ _ (by decide),
    occsIn_zero ['M', 'a', 'r', 'g', 'i', 'n', 'V', '='] _ _ (by decide),
    countOccs_natChars _ _ (by decide), countOccs_natChars _ _ (by decide),
    countOccs_natChars _ _ (by decide), countOccs_natChars _ _ (by decide),
    countOccs_intChars _ _ (by decide), countOccs_intChars _ _ (by decide),
    countOccs_intChars _ _ (by decide),
    countOccs_color _ _ (by decide) (by decide),
    countOccs_color _ _ (by decide) (by decide)]

theorem countOccs_labAlignment (s : SubStyle)
    (hf : countOccs (fontNameOf s) labAlignment = 0) :
    countOccs (styleChars s) labAlignment = 1 := by
  have hc : ',' ∉ labAlignment := by decide
  have hp : labAlignment ≠ [] := by decide
  rw [styleChars_decomp,
    countOccs_comma_split _ _ _ hc hp, countOccs_comma_split _ _ _ hc hp,
    countOccs_comma_split _ _ _ hc hp, countOccs_comma_split _ _ _ hc hp,
    countOccs_comma_split _ _ _ hc hp, countOccs_comma_split _ _ _ hc hp,
    countOccs_comma_split _ _ _ hc hp, countOccs_comma_split _ _ _ hc hp,
    countOccs_comma_split _ _ _ hc hp, countOccs_comma_split _ _ _ hc hp,
    segFontName, segFontSize, segPrimaryColour, segOutlineColour, segBorderStyle,
    segOutline, segShadow, segBold, segItalic, segAlignment, segMarginV]
  simp only [countOccs_append_split]
  have hown : occsIn labAlignment (intChars (alignmentOf s)) labAlignment = 1 := by
    rw [show occsIn labAlignment (intChars (alignmentOf s)) labAlignment
        = (if isPre labAlignment (labAlignment ++ intChars (alignmentOf s)) then 1 else 0)
          + occsIn ['l', 'i', 'g', 'n', 'm', 'e', 'n', 't', '=']
            (intChars (alignmentOf s)) labAlignment
        from rfl,
      isPre_self_append, occsIn_zero _ _ _ (by decide)]
    simp
  rw [hown, hf,
    occsIn_zero labFontName _ _ (by decide),
    occsIn_zero labFontSize _ _ (by decide),
    occsIn_zero labPrimaryColour _ _ (by decide),
    occsIn_zero labOutlineColour _ _ (by decide),
    occsIn_zero ['B', 'o', 'r', 'd', 'e', 'r', 'S', 't', 'y', 'l', 'e', '='] _ _ (by decide),
    occsIn_zero ['O', 'u', 't', 'l', 'i', 'n', 'e', '='] _ _ (by decide),
    occsIn_zero ['S', 'h', 'a', 'd', 'o', 'w', '='] _ _ (by decide),
    occsIn_zero ['B', 'o', 'l', 'd', '='] _ _ (by decide),
    occsIn_zero ['I', 't', 'a', 'l', 'i', 'c', '='] _ _ (by decide),
    occsIn_zero ['M', 'a', 'r', 'g', 'i', 'n', 'V', '='] _ _ (by decide),
    countOccs_natChars _ _ (by decide), countOccs_natChars _ _ (by decide),
    countOccs_natChars _ _ (by decide), countOccs_natChars _ _ (by decide),
    countOccs_intChars _ _ (by decide), countOccs_intChars _ _ (by decide),
    countOccs_intChars _ _ (by decide),
    countOccs_color _ _ (by decide) (by decide),
    countOccs_color _ _ (by decide) (by decide)]

/-- C7 (amended): for every style record whose derived font name contains
none of the five field labels, the formatter's output contains each of
`FontName=`, `FontSize=`, `PrimaryColour=`, `OutlineColour=` and `Alignment=`
exactly once; a colour value consisting of `#`-stripped six hexadecimal
characters yields a colour field of `&H` followed by exactly six (upper-case)
hexadecimal digits, and a colour value whose stripped length is not six
defaults to the literal opaque-white token `&H00FFFFFF` (eight hexadecimal
digits) rather than failing. -/
theorem subtitle_style_fields_amended (s : SubStyle)
    (h1 : countOccs (fontNameOf s) labFontName = 0)
    (h2 : countOccs (fontNameOf s) labFontSize = 0)
    (h3 : countOccs (fontNameOf s) labPrimaryColour = 0)
    (h4 : countOccs (fontNameOf s) labOutlineColour = 0)
    (h5 : countOccs (fontNameOf s) labAlignment = 0) :
    countOccs ((_build_subtitle_style_string s).data) labFontName = 1 ∧
    countOccs ((_build_subtitle_style_string s).data) labFontSize = 1 ∧
    countOccs ((_build_subtitle_style_string s).data) labPrimaryColour = 1 ∧
    countOccs ((_build_subtitle_style_string s).data) labOutlineColour = 1 ∧
    countOccs ((_build_subtitle_style_string s).data) labAlignment = 1 ∧
    (∀ col : String, (lstripHash col.data).length = 6 →
      (∀ c ∈ lstripHash col.data, isHexDigitCh c = true) →
      ∃ t, to_ass_color col = '&' :: 'H' :: t ∧ t.length = 6 ∧
        ∀ c ∈ t, isUpperHexCh c = true) ∧
    (∀ col : String, (lstripHash col.data).length ≠ 6 →
      to_ass_color col = "&H00FFFFFF".data) := by
  refine ⟨countOccs_labFontName s h1, countOccs_labFontSize s h2,
    countOccs_labPrimaryColour s h3, countOccs_labOutlineColour s h4,
    countOccs_labAlignment s h5, ?_, ?_⟩
  · intro col hlen hhex
    refine ⟨(((lstripHash col.data).drop 4).take 2 ++ ((lstripHash col.data).drop 2).take 2
        ++ (lstripHash col.data).take 2).map Char.toUpper, ?_, ?_, ?_⟩
    · simp only [to_ass_color]
      rw [if_pos hlen]
      simp only [List.map_cons]
      rw [show Char.toUpper '&' = '&' from by decide, show Char.toUpper 'H' = 'H' from by decide]
    · simp only [List.length_map, List.length_append, List.length_take, List.length_drop, hlen]
      omega
    · intro c hcm
      obtain ⟨d, hd, rfl⟩ := List.mem_map.mp hcm
      have hdm : d ∈ lstripHash col.data := by
        rcases List.mem_append.mp hd with hd1 | hd1
        · rcases List.mem_append.mp hd1 with hd2 | hd2
          · exact List.drop_subset _ _ (List.take_subset _ _ hd2)
          · exact List.drop_subset _ _ (List.take_subset _ _ hd2)
        · exact List.take_subset _ _ hd1
      exact upperHex_toUpper d (hhex d hdm)
  · intro col hne
    simp only [to_ass_color]
    rw [if_neg hne]

/-- Style record of the repository's own formatter test
(`tests/test_video_processing_logic.py`). -/
def styleTestVector : SubStyle :=
  { font_file := some "test.ttf", fontsize := 24, text_color := "#FF0000",
    outline_color := "#00FF00", bold := true, italic := false,
    position := some "Center", position_map := [("Center", 2)] }

set_option maxRecDepth 10000 in
/-- Witness for C7 (amended): the repository's own test style record. -/
theorem subtitle_style_fields_amended_witness :
    countOccs ((_build_subtitle_style_string styleTestVector).data) labFontName = 1 ∧
    countOccs ((_build_subtitle_style_string styleTestVector).data) labFontSize = 1 ∧
    countOccs ((_build_subtitle_style_string styleTestVector).data) labPrimaryColour = 1 ∧
    countOccs ((_build_subtitle_style_string styleTestVector).data) labOutlineColour = 1 ∧
    countOccs ((_build_subtitle_style_string styleTestVector).data) labAlignment = 1 ∧
    to_ass_color "#ABC" = "&H00FFFFFF".data := by
  have h := subtitle_style_fields_amended styleTestVector (by decide) (by decide)
    (by decide) (by decide) (by decide)
  exact ⟨h.1, h.2.1, h.2.2.1, h.2.2.2.1, h.2.2.2.2.1, h.2.2.2.2.2.2 "#ABC" (by decide)⟩

/-- Style record whose font file name injects a field label into the
formatted string. -/
def styleInjected : SubStyle :=
  { font_file := some "FontSize=1.ttf", fontsize := 28, text_color := "#FFFFFF",
    outline_color := "#000000", bold := true, italic := false,
    position := none, position_map := [] }

set_option maxRecDepth 10000 in
/-- C7 counterexample: the claim fails as stated.  A malformed colour
(`"#ABC"`) yields the opaque-white token `&H00FFFFFF`, which is `&H` followed
by eight hexadecimal digits, not exactly six; and a style whose font file is
named `FontSize=1.ttf` produces an output containing `FontSize=` twice, not
exactly once. -/
theorem subtitle_style_fields_counterexample :
    (to_ass_color "#ABC" = "&H00FFFFFF".data ∧ ("&H00FFFFFF".data).length = 10) ∧
    countOccs ((_build_subtitle_style_string styleInjected).data) labFontSize = 2 := by
  exact ⟨⟨by decide, by decide⟩, by decide⟩

/-! ## Single-item orchestration (`_run_single_item_processing`, lines 254-351)

Probe results, file-existence checks and the cancellation flag are inputs of
the embedding; the function either fails early (returning `False` in the
source) after emitting the shown status messages, or reaches `_execute_ffmpeg`
with the assembled command and final duration.  `output_path` stands for
`os.path.join(params['output_folder'], params['output_filename_single'])`;
`narration_volume`/`music_volume` carry the rendered numeric text interpolated
into the volume filters. -/

/-- One entry of the probed `streams` list: its `codec_type` and, for video
streams, `width`/`height` (absent keys are `none`, as `dict.get` yields
`None`). -/
structure StreamInfo where
  codec_type : String
  width : Option Int
  height : Option Int
deriving DecidableEq, Repr

/-- Probed media properties: the `streams` list and the `format` block's
`duration` (present or not, and its numeric value when present). -/
structure MediaProps where
  streams : List StreamInfo
  fmtHasDuration : Bool
  fmtDuration : Rat
deriving DecidableEq, Repr

/-- Inputs of one `_run_single_item_processing` call.  `narrationPresent`
(resp. `musicPresent`, `subtitlePresent`) is the combined check
`path and os.path.isfile(path)` of the source. -/
structure SingleParams where
  cancelSet : Bool
  videoProbe : Option MediaProps
  narrationPresent : Bool
  narrationProbe : Option MediaProps
  musicPresent : Bool
  musicProbe : Option MediaProps
  subtitlePresent : Bool
  resolution : String
  narration_volume : String
  music_volume : String
  subtitle_style : SubStyle
  ffmpeg_path : String
  media_path_single : String
  narration_path : String
  music_path : String
  subtitle_path : String
  output_path : String
  video_codec : String
  available_encoders : List String
deriving DecidableEq, Repr

/-- Outcome of `_run_single_item_processing`: an early `return False` with
the status messages emitted so far, or a hand-off to `_execute_ffmpeg` with
the assembled command and final duration (the messages are those emitted
before the hand-off). -/
inductive SingleOutcome
  | fail (msgs : List Msg)
  | run (msgs : List Msg) (cmd : List String) (duration : Rat)
deriving DecidableEq, Repr

/-- `float(props.get('format', {}).get('duration', 0))` (line 283). -/
def videoFmtDuration (vp : MediaProps) : Rat :=
  if vp.fmtHasDuration then vp.fmtDuration else 0

/-- Narration-duration probing of lines 274-281: the detected duration (0 when
missing or unreadable) and the status messages it emits. -/
def narrationInfo (p : SingleParams) : Rat × List Msg :=
  if p.narrationPresent then
    match p.narrationProbe with
    | some props =>
      if props.fmtHasDuration then
        (props.fmtDuration,
         [Msg.status ("Duração da narração detectada: " ++ toString props.fmtDuration ++ "s")
           Severity.info])
      else
        (0, [Msg.status "Aviso: Não foi possível ler a duração da narração" Severity.warning])
    | none =>
      (0, [Msg.status "Aviso: Não foi possível ler a duração da narração" Severity.warning])
  else (0, [])

/-- `str(Path(p)).replace('\\', '/').replace(':', '\\:')` (line 333), as one
character pass (the first replacement eliminates every backslash before the
second introduces new ones). -/
def escSubChars : List Char → List Char
  | [] => []
  | c :: t =>
    (if c = '\\' then ['/'] else if c = ':' then ['\\', ':'] else [c]) ++ escSubChars t

/-- The escaped subtitle path of line 333. -/
def escSub (s : String) : String := String.mk (escSubChars s.data)

/-- The `force_reencode` flag of lines 327-335: a resolution mismatch against
the parsed target, or a subtitle burn-in. -/
def forceReencode (p : SingleParams) (vs : StreamInfo) : Bool :=
  !(vs.width == some ((_parse_resolution p.resolution).1 : Int)
      && vs.height == some ((_parse_resolution p.resolution).2 : Int))
    || p.subtitlePresent

/-- The `audio_to_mix` labels of lines 312-318. -/
def audioToMix (p : SingleParams) : List String :=
  (if p.narrationPresent then ["[narrated]"] else [])
  ++ (if p.musicPresent then ["[music]"] else [])

/-- Tokens of the command up to (and excluding) the codec fragment
(lines 287-345): program name, `-y`, the inputs, the filter graph and the
stream maps. -/
def cmdPrefix (p : SingleParams) (vs : StreamInfo) (final_duration : Rat) : List String :=
  let music_duration : Rat :=
    match p.musicProbe with
    | some mp => if mp.fmtHasDuration then mp.fmtDuration else 0
    | none => 0
  let inputs : List String :=
    ["-i", p.media_path_single]
    ++ (if p.narrationPresent then ["-i", p.narration_path] else [])
    ++ (if p.musicPresent then
          (if 0 < music_duration ∧ music_duration < final_duration
            then ["-stream_loop", "-1"] else [])
          ++ ["-i", p.music_path]
        else [])
  let audio_input_count : Nat :=
    (if p.narrationPresent then 1 else 0) + (if p.musicPresent then 1 else 0)
  let music_input_idx : Nat := if p.narrationPresent then 2 else 1
  let narrFilter : List String :=
    if p.narrationPresent then
      ["[1:a]volume=" ++ p.narration_volume ++ "dB[narrated]"]
    else []
  let musicFilter : List String :=
    if p.musicPresent then
      ["[" ++ toString music_input_idx ++ ":a]volume=" ++ p.music_volume ++ "dB[music]"]
    else []
  let audio_to_mix : List String := audioToMix p
  let amixFilter : List String :=
    if audio_to_mix.length > 1 then
      [String.join audio_to_mix ++ "amix=inputs=" ++ toString audio_to_mix.length
        ++ ":duration=first:dropout_transition=3[aout]"]
    else []
  let audioMap : List String :=
    if audio_to_mix.length > 1 then ["-map", "[aout]"]
    else if audio_to_mix.length = 1 then
      ["-map", "[" ++ toString audio_input_count ++ ":a]"]
    else []
  let target_w : Nat := (_parse_resolution p.resolution).1
  let target_h : Nat := (_parse_resolution p.resolution).2
  let resMismatch : Bool :=
    !(vs.width == some (target_w : Int) && vs.height == some (target_h : Int))
  let scaleFilter : List String :=
    if resMismatch then
      ["scale=" ++ toString target_w ++ ":" ++ toString target_h
        ++ ":force_original_aspect_ratio=decrease,pad=" ++ toString target_w ++ ":"
        ++ toString target_h ++ ":(ow-iw)/2:(oh-ih)/2:color=black,setsar=1"]
    else []
  let subFilter : List String :=
    if p.subtitlePresent then
      ["subtitles='" ++ escSub p.subtitle_path ++ "':force_style='"
        ++ _build_subtitle_style_string p.subtitle_style ++ "'"]
    else []
  let video_filters : List String := scaleFilter ++ subFilter
  let videoFilterPart : List String :=
    if video_filters.isEmpty then []
    else ["[0:v]" ++ String.intercalate "," video_filters ++ "[vout]"]
  let videoMap : List String :=
    if video_filters.isEmpty then ["-map", "0:v"] else ["-map", "[vout]"]
  let filter_complex_parts : List String :=
    videoFilterPart ++ narrFilter ++ musicFilter ++ amixFilter
  let fcArgs : List String :=
    if filter_complex_parts.isEmpty then []
    else ["-filter_complex", String.intercalate ";" filter_complex_parts]
  [p.ffmpeg_path, "-y"] ++ inputs ++ fcArgs ++ audioMap ++ videoMap

/-- Tokens of the command after the codec fragment (lines 346-348): the audio
codec flags when audio is mixed, the `-t` duration cap, `-shortest` and the
output path. -/
def cmdSuffix (p : SingleParams) (final_duration : Rat) : List String :=
  (if (audioToMix p).isEmpty then [] else ["-c:a", "aac", "-b:a", "192k"])
  ++ ["-t", toString final_duration, "-shortest", p.output_path]

/-- Command assembly of lines 287-348, given the video stream found in the
probe and the resolved final duration. -/
def assembleCmd (p : SingleParams) (vs : StreamInfo) (final_duration : Rat) : List String :=
  cmdPrefix p vs final_duration
    ++ _get_codec_params ⟨p.video_codec, p.available_encoders⟩ (forceReencode p vs)
    ++ cmdSuffix p final_duration

/-- `next((s for s in streams if s['codec_type'] == 'video'), None)` (line
267). -/
def streamFind (vp : MediaProps) : Option StreamInfo :=
  vp.streams.find? (fun st => st.codec_type == "video")

/-- The final duration of line 283: the narration duration when nonzero
(Python's `or` on floats), otherwise the video's own format duration. -/
def finalDuration (p : SingleParams) (vp : MediaProps) : Rat :=
  if (narrationInfo p).1 ≠ 0 then (narrationInfo p).1 else videoFmtDuration vp

/-- Embedding of `_run_single_item_processing` (lines 254-351) up to the
`_execute_ffmpeg` hand-off. -/
def _run_single_item_processing (p : SingleParams) : SingleOutcome :=
  if p.cancelSet then SingleOutcome.fail []
  else
    match p.videoProbe with
    | none =>
      SingleOutcome.fail
        [Msg.status "Erro: Não foi possível ler as propriedades do vídeo de entrada."
          Severity.error]
    | some vp =>
      match streamFind vp with
      | none =>
        SingleOutcome.fail
          [Msg.status "Erro: Nenhuma trilha de vídeo encontrada no arquivo de entrada."
            Severity.error]
      | some vs =>
        if finalDuration p vp ≤ 0 then
          SingleOutcome.fail
            ((narrationInfo p).2
              ++ [Msg.status "Erro: Não foi possível determinar a duração final."
                Severity.error])
        else
          SingleOutcome.run (narrationInfo p).2 (assembleCmd p vs (finalDuration p vp))
            (finalDuration p vp)

/-- Inversion of the run outcome: it can only arise past the cancellation,
probe, stream and duration checks, with the assembled command. -/
theorem run_single_inv {p : SingleParams} {msgs : List Msg} {cmd : List String} {d : Rat}
    (h : _run_single_item_processing p = SingleOutcome.run msgs cmd d) :
    ∃ vp vs, p.videoProbe = some vp ∧ streamFind vp = some vs ∧
      d = finalDuration p vp ∧ cmd = assembleCmd p vs (finalDuration p vp) := by
  unfold _run_single_item_processing at h
  by_cases hc : p.cancelSet = true
  · rw [if_pos hc] at h
    simp at h
  · rw [if_neg hc] at h
    cases hvp : p.videoProbe with
    | none =>
      rw [hvp] at h
      simp at h
    | some vp =>
      rw [hvp] at h
      cases hvs : streamFind vp with
      | none =>
        simp only [hvs] at h
        simp at h
      | some vs =>
        simp only [hvs] at h
        by_cases hd : finalDuration p vp ≤ 0
        · rw [if_pos hd] at h
          simp at h
        · rw [if_neg hd] at h
          injection h with h1 h2 h3
          exact ⟨vp, vs, rfl, hvs, h3.symm, h2.symm⟩

/-- The stream-copy condition: the probed width and height both equal the
parsed target resolution, and no subtitle file is present. -/
def copyCond (p : SingleParams) (vs : StreamInfo) : Prop :=
  vs.width = some ((_parse_resolution p.resolution).1 : Int) ∧
  vs.height = some ((_parse_resolution p.resolution).2 : Int) ∧
  p.subtitlePresent = false

theorem forceReencode_false_iff (p : SingleParams) (vs : StreamInfo) :
    forceReencode p vs = false ↔ copyCond p vs := by
  unfold forceReencode copyCond
  cases hs : p.subtitlePresent <;>
    cases hw : vs.width == some ((_parse_resolution p.resolution).1 : Int) <;>
      cases hh : vs.height == some ((_parse_resolution p.resolution).2 : Int) <;>
        simp_all

theorem codec_reencode_shape (cp : CodecParams) :
    ∃ enc flags, _get_codec_params cp true = ["-c:v", enc] ++ flags ++ ["-pix_fmt", "yuv420p"]
      ∧ enc ≠ "copy" ∧ flags.length = 4 := by
  simp only [_get_codec_params]
  rw [if_neg (by decide)]
  split
  · split
    · exact ⟨"hevc_nvenc", ["-preset", "p4", "-cq", "23"], rfl, by decide, rfl⟩
    · split
      · exact ⟨"h264_nvenc", ["-preset", "p4", "-cq", "23"], rfl, by decide, rfl⟩
      · exact ⟨"libx264", ["-preset", "veryfast", "-crf", "23"], rfl, by decide, rfl⟩
  · exact ⟨"libx264", ["-preset", "veryfast", "-crf", "23"], rfl, by decide, rfl⟩

/-- C3: in single-item command assembly, the codec fragment of the assembled
command is the direct stream-copy fragment exactly when the probed source
resolution equals the parsed target resolution and no subtitle file is
present; otherwise it is the full re-encode fragment (an encoder different
from `copy` plus quality flags and pixel-format). -/
theorem single_item_copy_iff (p : SingleParams) (msgs : List Msg) (cmd : List String) (d : Rat)
    (hrun : _run_single_item_processing p = SingleOutcome.run msgs cmd d) :
    ∃ vp vs pre post frag,
      p.videoProbe = some vp ∧ streamFind vp = some vs ∧
      cmd = pre ++ frag ++ post ∧
      (frag = ["-c:v", "copy"] ↔ copyCond p vs) ∧
      (¬ copyCond p vs →
        ∃ enc flags, frag = ["-c:v", enc] ++ flags ++ ["-pix_fmt", "yuv420p"] ∧ enc ≠ "copy") := by
  obtain ⟨vp, vs, hvp, hvs, hdd, hcmd⟩ := run_single_inv hrun
  have hforce_of : ¬ copyCond p vs → forceReencode p vs = true := by
    intro hcc
    cases hf : forceReencode p vs
    · exact absurd ((forceReencode_false_iff p vs).mp hf) hcc
    · rfl
  refine ⟨vp, vs, cmdPrefix p vs (finalDuration p vp), cmdSuffix p (finalDuration p vp),
    _get_codec_params ⟨p.video_codec, p.available_encoders⟩ (forceReencode p vs),
    hvp, hvs, by rw [hcmd]; rfl, ?_, ?_⟩
  · constructor
    · intro hfrag
      by_contra hcc
      rw [hforce_of hcc] at hfrag
      obtain ⟨enc, flags, heq, hne, hflen⟩ :=
        codec_reencode_shape ⟨p.video_codec, p.available_encoders⟩
      rw [heq] at hfrag
      have hlen := congrArg List.length hfrag
      simp [hflen] at hlen
    · intro hcc
      rw [(forceReencode_false_iff p vs).mpr hcc]
      rfl
  · intro hcc
    rw [hforce_of hcc]
    obtain ⟨enc, flags, heq, hne, _⟩ :=
      codec_reencode_shape ⟨p.video_codec, p.available_encoders⟩
    exact ⟨enc, flags, heq, hne⟩

/-- A single-item parameter set on the copy path: matching resolution, no
narration, no music, no subtitle. -/
def pC3 : SingleParams :=
  { cancelSet := false
    videoProbe := some ⟨[⟨"video", some 1280, some 720⟩], true, 30⟩
    narrationPresent := false, narrationProbe := none
    musicPresent := false, musicProbe := none
    subtitlePresent := false
    resolution := "720p (1280x720)"
    narration_volume := "0", music_volume := "0"
    subtitle_style := styleTestVector
    ffmpeg_path := "ffmpeg", media_path_single := "v.mp4"
    narration_path := "", music_path := "", subtitle_path := ""
    output_path := "out.mp4"
    video_codec := "Automático", available_encoders := [] }

/-- Witness for C3: a concrete copy-path run. -/
theorem single_item_copy_iff_witness :
    ∃ msgs cmd,
      _run_single_item_processing pC3 = SingleOutcome.run msgs cmd 30 ∧
      ∃ vp vs pre post frag,
        pC3.videoProbe = some vp ∧ streamFind vp = some vs ∧
        cmd = pre ++ frag ++ post ∧
        (frag = ["-c:v", "copy"] ↔ copyCond pC3 vs) ∧
        (¬ copyCond pC3 vs →
          ∃ enc flags, frag = ["-c:v", enc] ++ flags ++ ["-pix_fmt", "yuv420p"]
            ∧ enc ≠ "copy") := by
  have hrun : _run_single_item_processing pC3
      = SingleOutcome.run [] (assembleCmd pC3 ⟨"video", some 1280, some 720⟩ 30) 30 := rfl
  exact ⟨_, _, hrun, single_item_copy_iff pC3 _ _ _ hrun⟩

/-- C4 (amended): the duration driving the `-t` cap is the narration duration
when a narration file exists, its duration is probe-able and nonzero, and
otherwise the source video's own duration (`finalDuration`); a resolved
duration of zero or less fails the item with a `status(error)` message instead
of running. -/
theorem single_item_duration_policy (p : SingleParams) (vp : MediaProps) (vs : StreamInfo)
    (hcancel : p.cancelSet = false)
    (hvp : p.videoProbe = some vp)
    (hvs : streamFind vp = some vs) :
    (0 < finalDuration p vp →
      ∃ pre, _run_single_item_processing p
          = SingleOutcome.run (narrationInfo p).2
            (pre ++ ["-t", toString (finalDuration p vp), "-shortest", p.output_path])
            (finalDuration p vp)) ∧
    (finalDuration p vp ≤ 0 →
      _run_single_item_processing p
        = SingleOutcome.fail ((narrationInfo p).2
            ++ [Msg.status "Erro: Não foi possível determinar a duração final."
              Severity.error])) := by
  constructor
  · intro hpos
    refine ⟨cmdPrefix p vs (finalDuration p vp)
        ++ _get_codec_params ⟨p.video_codec, p.available_encoders⟩ (forceReencode p vs)
        ++ (if (audioToMix p).isEmpty then [] else ["-c:a", "aac", "-b:a", "192k"]), ?_⟩
    unfold _run_single_item_processing
    rw [if_neg (by simp [hcancel])]
    simp only [hvp, hvs]
    rw [if_neg (not_le.mpr hpos)]
    congr 1
    rw [assembleCmd, cmdSuffix]
    simp [List.append_assoc]
  · intro hle
    unfold _run_single_item_processing
    rw [if_neg (by simp [hcancel])]
    simp only [hvp, hvs]
    rw [if_pos hle]

/-- Narration probe of the C4 witness: a readable 12-second track. -/
def mpNarr12 : MediaProps := ⟨[], true, 12⟩

/-- Video probe shared by the C4 witness inputs. -/
def mpVid30 : MediaProps := ⟨[⟨"video", some 1920, some 1080⟩], true, 30⟩

/-- C4 witness input with a probe-able 12-second narration. -/
def pC4 : SingleParams :=
  { cancelSet := false
    videoProbe := some mpVid30
    narrationPresent := true, narrationProbe := some mpNarr12
    musicPresent := false, musicProbe := none
    subtitlePresent := false
    resolution := "1080p (1920x1080)"
    narration_volume := "0", music_volume := "0"
    subtitle_style := styleTestVector
    ffmpeg_path := "ffmpeg", media_path_single := "v.mp4"
    narration_path := "n.mp3", music_path := "", subtitle_path := ""
    output_path := "out.mp4"
    video_codec := "Automático", available_encoders := [] }

/-- Video probe with no readable duration. -/
def mpVidNoDur : MediaProps := ⟨[⟨"video", some 1920, some 1080⟩], false, 0⟩

/-- C4 witness input whose duration cannot be resolved. -/
def pC4fail : SingleParams :=
  { cancelSet := false
    videoProbe := some mpVidNoDur
    narrationPresent := false, narrationProbe := none
    musicPresent := false, musicProbe := none
    subtitlePresent := false
    resolution := "1080p (1920x1080)"
    narration_volume := "0", music_volume := "0"
    subtitle_style := styleTestVector
    ffmpeg_path := "ffmpeg", media_path_single := "v.mp4"
    narration_path := "", music_path := "", subtitle_path := ""
    output_path := "out.mp4"
    video_codec := "Automático", available_encoders := [] }

/-- Witness for C4 (amended): both branches at concrete inputs — the
narration duration drives the `-t` cap, and an unresolvable duration fails
with a `status(error)`. -/
theorem single_item_duration_policy_witness :
    (∃ pre, _run_single_item_processing pC4
        = SingleOutcome.run (narrationInfo pC4).2
          (pre ++ ["-t", toString (finalDuration pC4 mpVid30), "-shortest", pC4.output_path])
          (finalDuration pC4 mpVid30)) ∧
    _run_single_item_processing pC4fail
      = SingleOutcome.fail ((narrationInfo pC4fail).2
          ++ [Msg.status "Erro: Não foi possível determinar a duração final."
            Severity.error]) :=
  ⟨(single_item_duration_policy pC4 mpVid30 ⟨"video", some 1920, some 1080⟩
      rfl rfl rfl).1 (by decide),
   (single_item_duration_policy pC4fail mpVidNoDur ⟨"video", some 1920, some 1080⟩
      rfl rfl rfl).2 (by decide)⟩

/-- Narration probe that is readable but reports duration `0.0`. -/
def mpNarr0 : MediaProps := ⟨[], true, 0⟩

/-- C4 counterexample input: narration present and probe-able with duration
`0`, video duration `10`. -/
def pC4x : SingleParams :=
  { cancelSet := false
    videoProbe := some ⟨[⟨"video", some 1920, some 1080⟩], true, 10⟩
    narrationPresent := true, narrationProbe := some mpNarr0
    musicPresent := false, musicProbe := none
    subtitlePresent := false
    resolution := "1080p (1920x1080)"
    narration_volume := "0", music_volume := "0"
    subtitle_style := styleTestVector
    ffmpeg_path := "ffmpeg", media_path_single := "v.mp4"
    narration_path := "n.mp3", music_path := "", subtitle_path := ""
    output_path := "out.mp4"
    video_codec := "Automático", available_encoders := [] }

/-- C4 counterexample: with a narration file present and probe-able but of
duration `0.0`, the claim says the narration duration (zero) is used and the
item therefore fails; the code instead falls back (Python `or` on a falsy
float) to the video's own 10-second duration and proceeds. -/
theorem single_item_duration_counterexample :
    (pC4x.narrationPresent = true ∧ pC4x.narrationProbe = some mpNarr0 ∧
      mpNarr0.fmtHasDuration = true ∧ mpNarr0.fmtDuration = 0) ∧
    (∃ msgs cmd, _run_single_item_processing pC4x = SingleOutcome.run msgs cmd 10) ∧
    (10 : Rat) ≠ 0 :=
  ⟨⟨rfl, rfl, rfl, rfl⟩, ⟨_, _, rfl⟩, by norm_num⟩

/-- The argument following each `-map` flag of a command. -/
def mapTargets : List String → List String
  | [] => []
  | "-map" :: x :: rest => x :: mapTargets rest
  | _ :: rest => mapTargets rest

/-- C9 input: exactly one audio track (a narration), no music, no subtitle,
matching resolution — the shape every batch item takes. -/
def pC9 : SingleParams :=
  { cancelSet := false
    videoProbe := some ⟨[⟨"video", some 1920, some 1080⟩], true, 30⟩
    narrationPresent := true, narrationProbe := some ⟨[], true, 10⟩
    musicPresent := false, musicProbe := none
    subtitlePresent := false
    resolution := "1080p (1920x1080)"
    narration_volume := "0", music_volume := "0"
    subtitle_style := styleTestVector
    ffmpeg_path := "ffmpeg", media_path_single := "v.mp4"
    narration_path := "n.mp3", music_path := "", subtitle_path := ""
    output_path := "out.mp4"
    video_codec := "Automático", available_encoders := [] }

/-- C9 (code evaluation at the failing input): with exactly one audio track,
the assembly emits the volume filter stage labelled `[narrated]` but maps the
audio with `-map "[1:a]"` — a reference to the raw input stream written in
link-label syntax — so the filtered stream's label `[narrated]` is never
mapped. -/
theorem single_item_audio_map_bug :
    ∃ msgs cmd,
      _run_single_item_processing pC9 = SingleOutcome.run msgs cmd 10 ∧
      cmd = ["ffmpeg", "-y", "-i", "v.mp4", "-i", "n.mp3",
        "-filter_complex", "[1:a]volume=0dB[narrated]",
        "-map", "[1:a]", "-map", "0:v", "-c:v", "copy",
        "-c:a", "aac", "-b:a", "192k", "-t", "10", "-shortest", "out.mp4"] ∧
      mapTargets cmd = ["[1:a]", "0:v"] ∧
      "[narrated]" ∉ mapTargets cmd := by
  refine ⟨_, _, rfl, ?_, ?_, ?_⟩ <;> decide

/-! ## Batch orchestration (`_run_batch_processing`, lines 423-477)

Folder validity, the sorted audio-file list, each item's candidate-video pool
(after the language-folder selection and extension filter of lines 446-453),
the `random.choice` pick, the per-item outcome of
`_run_single_item_processing` and the cancellation flag at each check point
are inputs of the embedding.  The messages an item's own
`_run_single_item_processing` call emits are abstracted into the per-item
outcome oracle; the `invoked` component records for which item indices the
single-item orchestrator was called. -/

/-- One batch item: the audio filename, its candidate-video pool, the video
`random.choice` would pick, and the like-named subtitle file when found. -/
structure BatchItem where
  filename : String
  pool : List String
  chosen : String
  subtitleFound : Option String
deriving DecidableEq, Repr

/-- Inputs of one `_run_batch_processing` call. -/
structure BatchEnv where
  audioFolderValid : Bool
  videoFolderValid : Bool
  items : List BatchItem
  itemResult : Nat → Bool
  cancelAtStart : Bool
  cancelAt : Nat → Bool
  cancelAfter : Nat → Bool

/-- Result of the batch call: emitted messages, boolean return value, and the
indices of items for which the single-item orchestrator was invoked. -/
structure BatchResult where
  msgs : List Msg
  result : Bool
  invoked : List Nat
deriving DecidableEq, Repr

/-- The warning emitted when an item's video pool is empty (line 455). -/
def emptyPoolWarning (i total : Nat) : Msg :=
  Msg.status ("[Lote " ++ toString (i + 1) ++ "/" ++ toString total
    ++ "] Aviso: Nenhum vídeo encontrado. Pulando.") Severity.warning

/-- The `for` loop of lines 439-474 over the remaining items, starting at
global index `i`; the trailing `batch_progress(1.0)` and `return True` of
lines 476-477 are the base case. -/
def batchLoop (env : BatchEnv) (total : Nat) : Nat → List BatchItem → BatchResult
  | _, [] => ⟨[Msg.batchProgress 1], true, []⟩
  | i, item :: rest =>
    if env.cancelAt i then ⟨[], false, []⟩
    else if item.pool.isEmpty then
      ⟨[Msg.batchProgress ((i : Rat) / (total : Rat)),
        Msg.status ("--- Iniciando Lote " ++ toString (i + 1) ++ "/" ++ toString total
          ++ ": " ++ item.filename ++ " ---") Severity.info,
        emptyPoolWarning i total]
        ++ (batchLoop env total (i + 1) rest).msgs,
       (batchLoop env total (i + 1) rest).result,
       (batchLoop env total (i + 1) rest).invoked⟩
    else
      ⟨[Msg.batchProgress ((i : Rat) / (total : Rat)),
        Msg.status ("--- Iniciando Lote " ++ toString (i + 1) ++ "/" ++ toString total
          ++ ": " ++ item.filename ++ " ---") Severity.info]
        ++ (if !env.itemResult i && !env.cancelAfter i then
              [Msg.status ("[Lote " ++ toString (i + 1) ++ "/" ++ toString total
                ++ "] Falha ao processar o item. Continuando...") Severity.error]
            else [])
        ++ (batchLoop env total (i + 1) rest).msgs,
       (batchLoop env total (i + 1) rest).result,
       i :: (batchLoop env total (i + 1) rest).invoked⟩

/-- Embedding of `_run_batch_processing` (lines 423-477). -/
def _run_batch_processing (env : BatchEnv) : BatchResult :=
  if env.cancelAtStart then ⟨[], false, []⟩
  else if !env.audioFolderValid then
    ⟨[Msg.status "Erro: Pasta de áudios do lote inválida." Severity.error], false, []⟩
  else if !env.videoFolderValid then
    ⟨[Msg.status "Erro: Pasta de vídeos do lote inválida." Severity.error], false, []⟩
  else if env.items.isEmpty then
    ⟨[Msg.status "Erro: Nenhum arquivo de áudio encontrado na pasta de lote." Severity.error],
      false, []⟩
  else batchLoop env env.items.length 0 env.items

/-- The item indices the loop is expected to hand to the single-item
orchestrator: those whose video pool is nonempty. -/
def expectedInvoked : Nat → List BatchItem → List Nat
  | _, [] => []
  | i, item :: rest =>
    (if item.pool.isEmpty then [] else [i]) ++ expectedInvoked (i + 1) rest

theorem batchLoop_no_cancel (env : BatchEnv) (total : Nat)
    (hc : ∀ i, env.cancelAt i = false) :
    ∀ (l : List BatchItem) (i : Nat),
      (batchLoop env total i l).result = true ∧
      (batchLoop env total i l).msgs.getLast? = some (Msg.batchProgress 1) ∧
      (batchLoop env total i l).invoked = expectedInvoked i l ∧
      (∀ j item, l.get? j = some item → item.pool = [] →
        emptyPoolWarning (i + j) total ∈ (batchLoop env total i l).msgs) := by
  intro l
  induction l with
  | nil =>
    intro i
    refine ⟨rfl, rfl, rfl, ?_⟩
    intro j item hj
    simp [List.get?] at hj
  | cons item rest ih =>
    intro i
    have hrest := ih (i + 1)
    have hne : (batchLoop env total (i + 1) rest).msgs ≠ [] := by
      intro hnil
      have h2 := hrest.2.1
      rw [hnil] at h2
      simp at h2
    rw [batchLoop, if_neg (by simp [hc i])]
    by_cases hpool : item.pool.isEmpty
    · rw [if_pos hpool]
      refine ⟨hrest.1, ?_, ?_, ?_⟩
      · exact (List.getLast?_append_of_ne_nil _ hne).trans hrest.2.1
      · rw [expectedInvoked, if_pos hpool]
        simpa using hrest.2.2.1
      · intro j it hj hpoolj
        cases j with
        | zero =>
          have hit : it = item := by
            simp [List.get?] at hj
            exact hj.symm
          simp only [Nat.add_zero]
          exact List.mem_append.mpr (Or.inl (by simp))
        | succ jj =>
          have hmem := hrest.2.2.2 jj it (by simpa [List.get?] using hj) hpoolj
          have hidx : i + (jj + 1) = i + 1 + jj := by omega
          rw [hidx]
          exact List.mem_append.mpr (Or.inr hmem)
    · rw [if_neg hpool]
      refine ⟨hrest.1, ?_, ?_, ?_⟩
      · exact (List.getLast?_append_of_ne_nil _ hne).trans hrest.2.1
      · rw [expectedInvoked, if_neg hpool]
        simpa using hrest.2.2.1
      · intro j it hj hpoolj
        cases j with
        | zero =>
          have hit : it = item := by
            simp [List.get?] at hj
            exact hj.symm
          rw [hit] at hpoolj
          rw [hpoolj] at hpool
          simp at hpool
        | succ jj =>
          have hmem := hrest.2.2.2 jj it (by simpa [List.get?] using hj) hpoolj
          have hidx : i + (jj + 1) = i + 1 + jj := by omega
          rw [hidx]
          exact List.mem_append.mpr (Or.inr hmem)

/-- C5: a batch run with valid folders, a nonempty audio list and no
cancellation returns `true` regardless of individual item outcomes, emits
`batch_progress(1.0)` as its final message, skips exactly the items whose
candidate-video pool is empty (emitting a warning for each) while invoking
the single-item orchestrator for every other item — so one item's empty pool
or processing failure never stops the batch. -/
theorem batch_best_effort (env : BatchEnv)
    (hstart : env.cancelAtStart = false)
    (haudio : env.audioFolderValid = true)
    (hvideo : env.videoFolderValid = true)
    (hne : env.items ≠ [])
    (hc : ∀ i, env.cancelAt i = false) :
    (_run_batch_processing env).result = true ∧
    (_run_batch_processing env).msgs.getLast? = some (Msg.batchProgress 1) ∧
    (_run_batch_processing env).invoked = expectedInvoked 0 env.items ∧
    (∀ j item, env.items.get? j = some item → item.pool = [] →
      emptyPoolWarning j env.items.length ∈ (_run_batch_processing env).msgs) := by
  have hrun : _run_batch_processing env = batchLoop env env.items.length 0 env.items := by
    unfold _run_batch_processing
    rw [if_neg (by simp [hstart]), if_neg (by simp [haudio]), if_neg (by simp [hvideo]),
      if_neg (by simp [List.isEmpty_eq_true, hne])]
  have h := batchLoop_no_cancel env env.items.length hc env.items 0
  rw [hrun]
  refine ⟨h.1, h.2.1, h.2.2.1, ?_⟩
  intro j item hj hpool
  simpa using h.2.2.2 j item hj hpool

/-- Witness environment for C5: two items, the first with an empty video
pool, and a single-item oracle that fails every item. -/
def envC5 : BatchEnv :=
  { audioFolderValid := true
    videoFolderValid := true
    items := [⟨"a_en.mp3", [], "", none⟩, ⟨"b_en.mp3", ["v1.mp4"], "v1.mp4", none⟩]
    itemResult := fun _ => false
    cancelAtStart := false
    cancelAt := fun _ => false
    cancelAfter := fun _ => false }

/-- Witness for C5: the concrete two-item batch. -/
theorem batch_best_effort_witness :
    (_run_batch_processing envC5).result = true ∧
    (_run_batch_processing envC5).msgs.getLast? = some (Msg.batchProgress 1) ∧
    (_run_batch_processing envC5).invoked = expectedInvoked 0 envC5.items ∧
    (∀ j item, envC5.items.get? j = some item → item.pool = [] →
      emptyPoolWarning j envC5.items.length ∈ (_run_batch_processing envC5).msgs) :=
  batch_best_effort envC5 rfl rfl rfl (by simp [envC5]) (fun _ => rfl)

end VideoProc
